import Mathlib

/-!
# The `unmap-route` command of the cf CLI

A shallow embedding of `cf/commands/route/unmap_route.go`.  The command is a Go
struct with five fields whose methods call collaborators (the flag context, the
requirements factory, the terminal UI, the route repository).  Each method is
embedded as a procedure over an explicit world: the command's fields together
with the chronological trace of the collaborator calls made so far.  A
procedure either returns a value or stops the invocation (`Abort`).
-/

namespace CF

/-! ## Values exchanged with the collaborators -/

/-- Go `error` value; `err.Error()` is its message. -/
structure GoError where
  msg : String
deriving DecidableEq

/-- The method `Error()` of a Go error. -/
def GoError.Error (e : GoError) : String := e.msg

/-- Semantic version `semver.Version` (major, minor, patch). -/
structure Version where
  Major : Nat
  Minor : Nat
  Patch : Nat
deriving DecidableEq

/-- Value of a run of decimal digits, most significant first; `none` on an
empty run or on a character that is not a digit. -/
def parseDigits : List Char → Option Nat
  | [] => none
  | cs => cs.foldl (fun acc c =>
      match acc with
      | none => none
      | some n => if c.isDigit then some (n * 10 + (c.toNat - 48)) else none) (some 0)

/-- Splits a character list at every dot. -/
def splitDots : List Char → List (List Char)
  | [] => [[]]
  | c :: cs =>
    if c = '.' then [] :: splitDots cs
    else
      match splitDots cs with
      | [] => [[c]]
      | part :: parts => (c :: part) :: parts

/-- The call `semver.Make(s)` of the external library blang/semver, for the
plain `MAJOR.MINOR.PATCH` form that the command uses: three dot-separated
decimal numbers give a version, anything else an error.  It is not the parser
of the library outside that form: it takes leading zeros and numbers of any
size and refuses pre-release and build suffixes.  The command passes it
"2.36.0" only, where both give the version 2.36.0. -/
def semverMake (s : String) : Except GoError Version :=
  match (splitDots s.data).map parseDigits with
  | [some major, some minor, some patch] => .ok ⟨major, minor, patch⟩
  | _ => .error ⟨"No Major.Minor.Patch elements found"⟩

/-- Modelled from the spec: `i18n.T` is not under src/ (internationalized
string lookup is out of scope); in the default locale the lookup of an English
message yields that message, which is how the tests read the output. -/
def T (translationID : String) : String := translationID

/-- The fields of `models.ApplicationFields` that the command reads. -/
structure ApplicationFields where
  GUID : String
  Name : String
deriving DecidableEq

/-- The fields of `models.Application` that the command reads. -/
structure Application where
  GUID : String
  Name : String
deriving DecidableEq

/-- The fields of `models.DomainFields` that identify a domain. -/
structure DomainFields where
  GUID : String
  Name : String
deriving DecidableEq

/-- A `models.Route` as the command uses it: its GUID, the applications bound
to it, and `URL`, the text that the method `route.URL()` renders. -/
structure Route where
  GUID : String
  URL : String
  Apps : List ApplicationFields
deriving DecidableEq

/-! ## Requirements -/

/-- An application requirement, built by the factory from an application name. -/
structure ApplicationRequirement where
  name : String
deriving DecidableEq

/-- A domain requirement, built by the factory from a domain name. -/
structure DomainRequirement where
  name : String
deriving DecidableEq

/-- Modelled from the spec: the package `requirements` is not under src/.  A
requirement is one of the closed set of tagged variants that the requirements
factory can construct; each value records the factory call that built it. -/
inductive Requirement where
  | login
  | application (r : ApplicationRequirement)
  | domain (r : DomainRequirement)
  | minAPIVersion (feature : String) (required : Version)
deriving DecidableEq

/-- Whether a requirement is a minimum-API-version requirement. -/
def Requirement.isMinAPIVersion : Requirement → Bool
  | .minAPIVersion _ _ => true
  | _ => false

/-! ## Flags -/

/-- Modelled from the spec: `flags.FlagContext` is an interface of the package
`flags`, which is not under src/.  It gives the residual positional arguments
and, per flag name, whether the flag was explicitly set and its string and
integer value; an unset flag returns the zero value of the type when queried. -/
structure FlagContext where
  Args : List String
  IsSet : String → Bool
  Int : String → Int
  String : String → String
  string_unset : ∀ k, IsSet k = false → String k = ""
  int_unset : ∀ k, IsSet k = false → Int k = 0

/-- A flag given on the command line with its value. -/
inductive FlagValue where
  | str (s : String)
  | int (i : Int)
deriving DecidableEq

/-- Looks a flag name up among the flags that were set. -/
def lookupFlag (k : String) : List (String × FlagValue) → Option FlagValue
  | [] => none
  | (name, v) :: rest => if name = k then some v else lookupFlag k rest

/-- The flag context holding the given positional arguments and set flags. -/
def mkFlagContext (args : List String) (set : List (String × FlagValue)) : FlagContext where
  Args := args
  IsSet k := (lookupFlag k set).isSome
  Int k := match lookupFlag k set with
    | some (.int i) => i
    | _ => 0
  String k := match lookupFlag k set with
    | some (.str s) => s
    | _ => ""
  string_unset k h := by
    cases hk : lookupFlag k set with
    | none => simp [hk]
    | some v => simp [hk] at h
  int_unset k h := by
    cases hk : lookupFlag k set with
    | none => simp [hk]
    | some v => simp [hk] at h

/-- Value type of a declared flag. -/
inductive FlagKind where
  | stringFlag
  | intFlag
  | boolFlag
deriving DecidableEq

/-- A declared flag (`flags.StringFlag`, `flags.IntFlag`): name, short name,
help text and value type. -/
structure FlagSet where
  Name : String
  ShortName : String
  Usage : String
  kind : FlagKind
deriving DecidableEq

/-- The record `commandregistry.CommandMetadata`; the Go map `Flags` is kept as
the list of its key and value pairs. -/
structure CommandMetadata where
  Name : String
  Description : String
  Usage : List String
  Examples : List String
  Flags : List (String × FlagSet)

/-! ## Collaborators -/

/-- The output sink `terminal.UI`, identified by a handle. -/
structure UI where
  handle : Nat
deriving DecidableEq

/-- What the command reads from the configuration reader `coreconfig.Reader`:
the names of the targeted organization and space and the user name. -/
structure Config where
  OrganizationName : String
  SpaceName : String
  Username : String
deriving DecidableEq

/-- The two operations of `api.RouteRepository` that the command calls.  Each
returns what the Go call returns: `Find` a route together with an optional
error, `Unbind` an optional error. -/
structure RouteRepository where
  Find : String → DomainFields → String → Int → Route × Option GoError
  Unbind : String → String → Option GoError

/-- The repository locator carried by the dependency bundle. -/
structure RepoLocator where
  routeRepository : Option RouteRepository

/-- The method `GetRouteRepository` of the locator. -/
def RepoLocator.GetRouteRepository (l : RepoLocator) : Option RouteRepository :=
  l.routeRepository

/-- The dependency bundle `commandregistry.Dependency`; a Go interface field
may be nil. -/
structure Dependency where
  UI : Option UI
  Config : Option Config
  RepoLocator : RepoLocator

/-- What the command takes from outside its own file: the usage text that the
command registry renders, the constant `cf.TcpRoutingMinimumAPIVersion`, the
entity that an evaluated requirement resolved, and the colorizer
`terminal.EntityNameColor`. -/
structure Env where
  CommandUsage : String → String
  TcpRoutingMinimumAPIVersion : Version
  GetApplication : ApplicationRequirement → Application
  GetDomain : DomainRequirement → DomainFields
  EntityNameColor : String → String

/-! ## Worlds, traces and procedures -/

/-- A call that the command makes on one of its collaborators. -/
inductive Event where
  | flagArgs
  | flagIsSet (name : String)
  | flagString (name : String)
  | flagInt (name : String)
  | newApplicationRequirement (name : String)
  | newDomainRequirement (name : String)
  | newMinAPIVersionRequirement (feature : String) (required : Version)
  | newLoginRequirement
  | uiFailed (message : String)
  | uiSay (message : String) (args : List (String × String))
  | uiOk
  | uiWarn (message : String)
  | repoFind (hostName : String) (domain : DomainFields) (path : String) (port : Int)
  | repoUnbind (routeGUID : String) (appGUID : String)
deriving DecidableEq

/-- The command struct `UnmapRoute`; interface fields are nil until assigned. -/
structure UnmapRoute where
  ui : Option UI
  config : Option Config
  routeRepo : Option RouteRepository
  appReq : Option ApplicationRequirement
  domainReq : Option DomainRequirement

/-- The command as `init` registers it: `&UnmapRoute{}`, every field nil. -/
def UnmapRoute.registered : UnmapRoute :=
  { ui := none, config := none, routeRepo := none, appReq := none, domainReq := none }

/-- Why an invocation stopped before the method returned. -/
inductive Abort where
  | failed
  | nilDereference
  | indexOutOfRange
  | panicked (msg : String)
deriving DecidableEq

/-- The command's fields and the calls made so far, oldest first. -/
structure World where
  cmd : UnmapRoute
  trace : List Event

/-- A procedure: from a world to a result (or an abort) and the world after. -/
def Proc (α : Type) : Type := World → Except Abort α × World

/-- Returns a value without touching the world. -/
def Proc.pure {α : Type} (a : α) : Proc α := fun w => (.ok a, w)

/-- Sequencing: an abort of the first procedure skips the second. -/
def Proc.bind {α β : Type} (m : Proc α) (f : α → Proc β) : Proc β := fun w =>
  match m w with
  | (.ok a, w1) => f a w1
  | (.error e, w1) => (.error e, w1)

instance : Monad Proc where
  pure := Proc.pure
  bind := Proc.bind

/-- Records a collaborator call. -/
def emit (e : Event) : Proc Unit := fun w => (.ok (), { w with trace := w.trace ++ [e] })

/-- Stops the invocation. -/
def abort {α : Type} (a : Abort) : Proc α := fun w => (.error a, w)

/-- Reads the command's fields. -/
def getCmd : Proc UnmapRoute := fun w => (.ok w.cmd, w)

/-- Assigns the command's fields. -/
def setCmd (c : UnmapRoute) : Proc Unit := fun w => (.ok (), { w with cmd := c })

/-! ## Calls on the collaborators -/

/-- The call `fc.Args()`. -/
def fcArgs (fc : FlagContext) : Proc (List String) := do
  emit .flagArgs
  pure fc.Args

/-- The call `fc.IsSet(name)`. -/
def fcIsSet (fc : FlagContext) (name : String) : Proc Bool := do
  emit (.flagIsSet name)
  pure (fc.IsSet name)

/-- The call `fc.String(name)`. -/
def fcString (fc : FlagContext) (name : String) : Proc String := do
  emit (.flagString name)
  pure (fc.String name)

/-- The call `fc.Int(name)`. -/
def fcInt (fc : FlagContext) (name : String) : Proc Int := do
  emit (.flagInt name)
  pure (fc.Int name)

/-- Go slice indexing `xs[i]`: out of range is a run-time panic. -/
def index (xs : List String) (i : Nat) : Proc String :=
  match xs.get? i with
  | some x => pure x
  | none => abort .indexOutOfRange

/-- The call `requirementsFactory.NewApplicationRequirement(name)`. -/
def NewApplicationRequirement (name : String) : Proc ApplicationRequirement := do
  emit (.newApplicationRequirement name)
  pure ⟨name⟩

/-- The call `requirementsFactory.NewDomainRequirement(name)`. -/
def NewDomainRequirement (name : String) : Proc DomainRequirement := do
  emit (.newDomainRequirement name)
  pure ⟨name⟩

/-- The call `requirementsFactory.NewMinAPIVersionRequirement(feature, required)`. -/
def NewMinAPIVersionRequirement (feature : String) (required : Version) : Proc Requirement := do
  emit (.newMinAPIVersionRequirement feature required)
  pure (.minAPIVersion feature required)

/-- The call `requirementsFactory.NewLoginRequirement()`. -/
def NewLoginRequirement : Proc Requirement := do
  emit .newLoginRequirement
  pure .login

/-- The receiver `cmd.ui` of a call: a nil interface is a run-time panic. -/
def theUI : Proc UI := do
  match (← getCmd).ui with
  | some ui => pure ui
  | none => abort .nilDereference

/-- Modelled from the spec: `terminal.UI` is not under src/.  `cmd.ui.Failed`
is the failure-reporting path: it reports the message and halts control flow,
so nothing after the call runs in the same invocation. -/
def uiFailed (message : String) : Proc Unit := do
  let _ ← theUI
  emit (.uiFailed message)
  abort .failed

/-- The call `cmd.ui.Say(message)`, the message being a translation with its
template arguments. -/
def uiSay (message : String) (args : List (String × String)) : Proc Unit := do
  let _ ← theUI
  emit (.uiSay message args)

/-- The call `cmd.ui.Ok()`, which prints the confirmation. -/
def uiOk : Proc Unit := do
  let _ ← theUI
  emit .uiOk

/-- The call `cmd.ui.Warn(message)`. -/
def uiWarn (message : String) : Proc Unit := do
  let _ ← theUI
  emit (.uiWarn message)

/-- The receiver `cmd.routeRepo` of a call. -/
def theRouteRepo : Proc RouteRepository := do
  match (← getCmd).routeRepo with
  | some repo => pure repo
  | none => abort .nilDereference

/-- The receiver `cmd.config` of a call. -/
def theConfig : Proc Config := do
  match (← getCmd).config with
  | some config => pure config
  | none => abort .nilDereference

/-- The call `cmd.routeRepo.Find(hostName, domain, path, port)`. -/
def repoFind (hostName : String) (domain : DomainFields) (path : String) (port : Int) :
    Proc (Route × Option GoError) := do
  let repo ← theRouteRepo
  emit (.repoFind hostName domain path port)
  pure (repo.Find hostName domain path port)

/-- The call `cmd.routeRepo.Unbind(routeGUID, appGUID)`. -/
def repoUnbind (routeGUID : String) (appGUID : String) : Proc (Option GoError) := do
  let repo ← theRouteRepo
  emit (.repoUnbind routeGUID appGUID)
  pure (repo.Unbind routeGUID appGUID)

/-- The call `cmd.domainReq.GetDomain()`. -/
def GetDomain (env : Env) : Proc DomainFields := do
  match (← getCmd).domainReq with
  | some r => pure (env.GetDomain r)
  | none => abort .nilDereference

/-- The call `cmd.appReq.GetApplication()`. -/
def GetApplication (env : Env) : Proc Application := do
  match (← getCmd).appReq with
  | some r => pure (env.GetApplication r)
  | none => abort .nilDereference

/-! ## The command -/

/-- The method `MetaData` of `UnmapRoute`. -/
def UnmapRoute.MetaData : CommandMetadata :=
  { Name := "unmap-route"
    Description := T "Remove a url route from an app"
    Usage := [
      T "Unmap an HTTP route" ++ ":\n",
      "      CF_NAME unmap-route ",
      T "APP_NAME" ++ " ",
      T "DOMAIN" ++ " ",
      "[--hostname " ++ T "HOSTNAME" ++ "] ",
      "[--path " ++ T "PATH" ++ "]\n\n",
      "   " ++ T "Unmap a TCP route" ++ ":\n",
      "      CF_NAME unmap-route ",
      T "APP_NAME" ++ " ",
      T "DOMAIN" ++ " ",
      "--port " ++ T "PORT" ]
    Examples := [
      "CF_NAME unmap-route my-app example.com                              # example.com",
      "CF_NAME unmap-route my-app example.com --hostname myhost            # myhost.example.com",
      "CF_NAME unmap-route my-app example.com --hostname myhost --path foo # myhost.example.com/foo",
      "CF_NAME unmap-route my-app example.com --port 5000                  # example.com:5000" ]
    Flags := [
      ("hostname", ⟨"hostname", "n", T "Hostname used to identify the HTTP route", .stringFlag⟩),
      ("path", ⟨"path", "", T "Path used to identify the HTTP route", .stringFlag⟩),
      ("port", ⟨"port", "", T "Port used to identify the TCP route", .intFlag⟩) ] }

/-- The condition `fc.IsSet("port") && (fc.IsSet("hostname") || fc.IsSet("path"))`,
with the short-circuit evaluation of Go. -/
def portWithHostnameOrPath (fc : FlagContext) : Proc Bool := do
  if ← fcIsSet fc "port" then
    if ← fcIsSet fc "hostname" then pure true
    else fcIsSet fc "path"
  else pure false

/-- The method `Requirements` of `UnmapRoute`.  A Go `if` statement without
`else` is the conditional whose other branch does nothing.  The last three
elements read the fields `cmd.appReq` and `cmd.domainReq`, assigned a few
lines before, so the branch for a nil field is never taken. -/
def UnmapRoute.Requirements (env : Env) (fc : FlagContext) : Proc (List Requirement) := do
  let args ← fcArgs fc
  (if args.length != 2 then
    uiFailed (T "Incorrect Usage. Requires app_name, domain_name as arguments\n\n"
      ++ env.CommandUsage "unmap-route")
  else pure ())
  let illegal ← portWithHostnameOrPath fc
  (if illegal then
    uiFailed (T "Cannot specify port together with hostname and/or path.")
  else pure ())
  let domainName ← index (← fcArgs fc) 1
  let appReq ← NewApplicationRequirement (← index (← fcArgs fc) 0)
  setCmd { (← getCmd) with appReq := some appReq }
  let domainReq ← NewDomainRequirement domainName
  setCmd { (← getCmd) with domainReq := some domainReq }
  let requiredVersion ←
    (match semverMake "2.36.0" with
    | .ok v => pure v
    | .error err => abort (.panicked err.Error))
  let reqs : List Requirement := []
  let path ← fcString fc "path"
  let reqs ←
    (if path != "" then do
      let r ← NewMinAPIVersionRequirement "Option \x27--path\x27" requiredVersion
      pure (reqs ++ [r])
    else pure reqs)
  let port ← fcIsSet fc "port"
  let reqs ←
    (if port then do
      let r ← NewMinAPIVersionRequirement "Option \x27--port\x27" env.TcpRoutingMinimumAPIVersion
      pure (reqs ++ [r])
    else pure reqs)
  let loginReq ← NewLoginRequirement
  match (← getCmd).appReq, (← getCmd).domainReq with
  | some a, some d => pure (reqs ++ [loginReq, .application a, .domain d])
  | _, _ => abort .nilDereference

/-- The method `SetDependency` of `UnmapRoute`; it returns the command. -/
def UnmapRoute.SetDependency (deps : Dependency) (pluginCall : Bool) : Proc UnmapRoute := do
  let _ := pluginCall
  setCmd { (← getCmd) with ui := deps.UI }
  setCmd { (← getCmd) with config := deps.Config }
  setCmd { (← getCmd) with routeRepo := deps.RepoLocator.GetRouteRepository }
  getCmd

/-- The body of the loop `for _, routeApp := range route.Apps` of `Execute`
over the applications still to visit.  It returns `routeFound`: the first
application with the GUID of `app` is unbound and ends the loop (`break`). -/
def unbindFirstMatch (route : Route) (app : Application) : List ApplicationFields → Proc Bool
  | [] => pure false
  | routeApp :: rest =>
    if routeApp.GUID = app.GUID then do
      let err ← repoUnbind route.GUID app.GUID
      (match err with
      | some e => uiFailed e.Error
      | none => pure ())
      pure true
    else unbindFirstMatch route app rest

/-- The method `Execute` of `UnmapRoute`. -/
def UnmapRoute.Execute (env : Env) (c : FlagContext) : Proc Unit := do
  let hostName ← fcString c "n"
  let path ← fcString c "path"
  let port ← fcInt c "port"
  let domain ← GetDomain env
  let app ← GetApplication env
  let found ← repoFind hostName domain path port
  let route := found.1
  let err := found.2
  (match err with
  | some e => uiFailed e.Error
  | none => pure ())
  let config ← theConfig
  uiSay (T ("Removing route \x7b\x7b.URL\x7d\x7d from app \x7b\x7b.AppName\x7d\x7d in org "
      ++ "\x7b\x7b.OrgName\x7d\x7d / space \x7b\x7b.SpaceName\x7d\x7d as \x7b\x7b.Username\x7d\x7d..."))
    [ ("URL", env.EntityNameColor route.URL),
      ("AppName", env.EntityNameColor app.Name),
      ("OrgName", env.EntityNameColor config.OrganizationName),
      ("SpaceName", env.EntityNameColor config.SpaceName),
      ("Username", env.EntityNameColor config.Username) ]
  let routeFound ← unbindFirstMatch route app route.Apps
  uiOk
  (if !routeFound then
    uiWarn (T "\nRoute to be unmapped is not currently mapped to the application.")
  else pure ())

/-- Runs a procedure on a command with an empty trace. -/
def run {α : Type} (p : Proc α) (cmd : UnmapRoute) : Except Abort α × World :=
  p { cmd := cmd, trace := [] }

/-! ## Reading a trace -/

/-- Whether the call constructs a requirement through the factory. -/
def Event.isFactory : Event → Bool
  | .newApplicationRequirement _ => true
  | .newDomainRequirement _ => true
  | .newMinAPIVersionRequirement _ _ => true
  | .newLoginRequirement => true
  | _ => false

/-- Whether the call is made on the output sink (the failure-reporting path
included). -/
def Event.isUI : Event → Bool
  | .uiFailed _ => true
  | .uiSay _ _ => true
  | .uiOk => true
  | .uiWarn _ => true
  | _ => false

/-- Whether the call is made on the route repository. -/
def Event.isRepo : Event → Bool
  | .repoFind _ _ _ _ => true
  | .repoUnbind _ _ => true
  | _ => false

/-- The flag name that a call queries on the flag context through `IsSet`,
`String` or `Int`. -/
def Event.flagName : Event → Option String
  | .flagIsSet name => some name
  | .flagString name => some name
  | .flagInt name => some name
  | _ => none

/-- The flag names queried in a trace, in order. -/
def queriedFlags (trace : List Event) : List String := trace.filterMap Event.flagName

/-- The keys of the flag schema that `MetaData` returns. -/
def declaredFlagNames : List String := UnmapRoute.MetaData.Flags.map Prod.fst

/-- The short names that the flag schema of `MetaData` declares. -/
def declaredShortNames : List String :=
  (UnmapRoute.MetaData.Flags.map (fun kv => kv.2.ShortName)).filter (fun n => n != "")

/-- The message of the usage error for a wrong number of arguments. -/
def incorrectUsageMessage (env : Env) : String :=
  "Incorrect Usage. Requires app_name, domain_name as arguments\n\n" ++ env.CommandUsage "unmap-route"

/-- The flag combination that `Requirements` rejects. -/
def illegalFlags (fc : FlagContext) : Bool :=
  fc.IsSet "port" && (fc.IsSet "hostname" || fc.IsSet "path")

/-- The version requirements at the front of the list of `Requirements`. -/
def versionRequirements (env : Env) (fc : FlagContext) : List Requirement :=
  (if fc.String "path" = "" then [] else [.minAPIVersion "Option \x27--path\x27" ⟨2, 36, 0⟩]) ++
  (if fc.IsSet "port" = true then
    [.minAPIVersion "Option \x27--port\x27" env.TcpRoutingMinimumAPIVersion] else [])

/-- The calls that `Requirements` makes on a well-formed invocation with the
positional arguments `a0` and `a1`. -/
def wellFormedTrace (env : Env) (fc : FlagContext) (a0 a1 : String) : List Event :=
  [.flagArgs, .flagIsSet "port"] ++
  (if fc.IsSet "port" = true then [.flagIsSet "hostname", .flagIsSet "path"] else []) ++
  [.flagArgs, .flagArgs, .newApplicationRequirement a0, .newDomainRequirement a1,
    .flagString "path"] ++
  (if fc.String "path" = "" then []
    else [.newMinAPIVersionRequirement "Option \x27--path\x27" ⟨2, 36, 0⟩]) ++
  [.flagIsSet "port"] ++
  (if fc.IsSet "port" = true then
    [.newMinAPIVersionRequirement "Option \x27--port\x27" env.TcpRoutingMinimumAPIVersion]
    else []) ++
  [.newLoginRequirement]

/-! ## Sample collaborators -/

/-- A sample environment. -/
def sampleEnv : Env :=
  { CommandUsage := fun name => "USAGE of " ++ name
    TcpRoutingMinimumAPIVersion := ⟨2, 53, 0⟩
    GetApplication := fun r => ⟨r.name ++ "-guid", r.name⟩
    GetDomain := fun r => ⟨r.name ++ "-guid", r.name⟩
    EntityNameColor := fun s => s }

/-- A sample route repository: it finds the route `route` and unbinds without
error. -/
def sampleRepo (route : Route) : RouteRepository :=
  { Find := fun _ _ _ _ => (route, none)
    Unbind := fun _ _ => none }

/-- A sample route repository whose `Find` fails. -/
def findFailsRepo : RouteRepository :=
  { Find := fun _ _ _ _ => (⟨"", "", []⟩, some ⟨"api error"⟩)
    Unbind := fun _ _ => none }

/-- A sample route repository whose `Unbind` fails. -/
def unbindFailsRepo (route : Route) : RouteRepository :=
  { Find := fun _ _ _ _ => (route, none)
    Unbind := fun _ _ => some ⟨"unbind error"⟩ }

/-- A sample dependency bundle around a route repository. -/
def sampleDeps (repo : RouteRepository) : Dependency :=
  { UI := some ⟨1⟩
    Config := some ⟨"my-org", "my-space", "my-user"⟩
    RepoLocator := ⟨some repo⟩ }

/-- The registered command after `SetDependency` with the sample bundle. -/
def injected (repo : RouteRepository) : UnmapRoute :=
  { ui := some ⟨1⟩
    config := some ⟨"my-org", "my-space", "my-user"⟩
    routeRepo := some repo
    appReq := none
    domainReq := none }

/-- The injected command after `Requirements` built the requirements for the
application `my-app` and the domain `example.com`. -/
def ready (repo : RouteRepository) : UnmapRoute :=
  { injected repo with appReq := some ⟨"my-app"⟩, domainReq := some ⟨"example.com"⟩ }

/-- The progress message that `Execute` says before it unbinds. -/
def progressSay (env : Env) (route : Route) (app : Application) (config : Config) : Event :=
  .uiSay ("Removing route \x7b\x7b.URL\x7d\x7d from app \x7b\x7b.AppName\x7d\x7d in org "
      ++ "\x7b\x7b.OrgName\x7d\x7d / space \x7b\x7b.SpaceName\x7d\x7d as \x7b\x7b.Username\x7d\x7d...")
    [ ("URL", env.EntityNameColor route.URL),
      ("AppName", env.EntityNameColor app.Name),
      ("OrgName", env.EntityNameColor config.OrganizationName),
      ("SpaceName", env.EntityNameColor config.SpaceName),
      ("Username", env.EntityNameColor config.Username) ]

/-- The calls with which `Execute` starts: the three flag queries and `Find`. -/
def findTrace (env : Env) (c : FlagContext) (dr : DomainRequirement) : List Event :=
  [.flagString "n", .flagString "path", .flagInt "port",
    .repoFind (c.String "n") (env.GetDomain dr) (c.String "path") (c.Int "port")]

/-- Whether one of the applications has the GUID of `app`. -/
def boundTo (apps : List ApplicationFields) (app : Application) : Bool :=
  apps.any (fun routeApp => decide (routeApp.GUID = app.GUID))

/-- A sample flag context: two positional arguments and no flag. -/
def plainFlags : FlagContext := mkFlagContext ["my-app", "example.com"] []

/-- A sample route bound to another application only. -/
def otherRoute : Route := ⟨"route-guid", "example.com", [⟨"other-guid", "other-app"⟩]⟩

/-- A sample route bound to the application `my-app` of the sample environment. -/
def boundRoute : Route :=
  ⟨"route-guid", "example.com", [⟨"other-guid", "other-app"⟩, ⟨"my-app-guid", "my-app"⟩]⟩

/-- The calls that `Requirements` can make: reading the arguments, `IsSet` on
"port", "hostname" and "path", `String` on "path", the factory and the
failure-reporting path. -/
def requirementsEvent : Event → Bool
  | .flagArgs => true
  | .flagIsSet name => decide (name = "port" ∨ name = "hostname" ∨ name = "path")
  | .flagString name => decide (name = "path")
  | .newApplicationRequirement _ => true
  | .newDomainRequirement _ => true
  | .newMinAPIVersionRequirement _ _ => true
  | .newLoginRequirement => true
  | .uiFailed _ => true
  | _ => false

/-- The calls that `Execute` can make on the flag context `c`: `String` on "n"
and "path", `Int` on "port", `Find` with the values of these three queries,
`Unbind` and the UI. -/
def executeEvent (c : FlagContext) : Event → Bool
  | .flagString name => decide (name = "n" ∨ name = "path")
  | .flagInt name => decide (name = "port")
  | .repoFind hostName _ path port =>
    decide (hostName = c.String "n" ∧ path = c.String "path" ∧ port = c.Int "port")
  | .repoUnbind _ _ => true
  | .uiFailed _ => true
  | .uiSay _ _ => true
  | .uiOk => true
  | .uiWarn _ => true
  | _ => false

/-! ## The status of a service instance -/

/-- Modelled from the spec: `ServiceInstanceStateToStatus` of the package
`cf/commands/service` is not under src/; only its tests in `service_test.go`
are.  For a user-provided service the status is empty; otherwise the states
"in progress", "succeeded" and "failed" give the operation type followed by a
space and the state, and the empty state gives the empty status.  The tests
fix no other state; any other state is given the empty status here. -/
def ServiceInstanceStateToStatus (operationType : String) (state : String)
    (isUserProvidedService : Bool) : String :=
  if isUserProvidedService then ""
  else if state = "in progress" ∨ state = "succeeded" ∨ state = "failed" then
    operationType ++ " " ++ state
  else ""

/-- Whether the call is `Unbind` on the route repository. -/
def Event.isUnbind : Event → Bool
  | .repoUnbind _ _ => true
  | _ => false

/-- A sample route in which two bound applications have the GUID of `my-app`. -/
def twiceBoundRoute : Route :=
  ⟨"route-guid", "example.com",
    [⟨"my-app-guid", "my-app"⟩, ⟨"other-guid", "other-app"⟩, ⟨"my-app-guid", "my-app"⟩]⟩

/-- Whether the call constructs an application or a domain requirement. -/
def Event.isEntityRequirement : Event → Bool
  | .newApplicationRequirement _ => true
  | .newDomainRequirement _ => true
  | _ => false

/-- A sample flag context: two positional arguments, the port flag and the
path flag. -/
def conflictFlags : FlagContext :=
  mkFlagContext ["my-app", "example.com"] [("port", .int 5000), ("path", .str "/x")]

/-! ## Evaluation lemmas -/

theorem bind_apply {α β : Type} (m : Proc α) (f : α → Proc β) (w : World) :
    (m >>= f) w = match m w with
      | (.ok a, w1) => f a w1
      | (.error e, w1) => (.error e, w1) := rfl

theorem pure_apply {α : Type} (a : α) (w : World) : (pure a : Proc α) w = (.ok a, w) := rfl

@[simp] theorem emit_apply (e : Event) (w : World) :
    emit e w = (.ok (), { cmd := w.cmd, trace := w.trace ++ [e] }) := rfl

@[simp] theorem abort_apply {α : Type} (a : Abort) (w : World) :
    (abort a : Proc α) w = (.error a, w) := rfl

@[simp] theorem getCmd_apply (w : World) : getCmd w = (.ok w.cmd, w) := rfl

@[simp] theorem setCmd_apply (c : UnmapRoute) (w : World) :
    setCmd c w = (.ok (), { cmd := c, trace := w.trace }) := rfl

@[simp] theorem fcArgs_apply (fc : FlagContext) (w : World) :
    fcArgs fc w = (.ok fc.Args, { cmd := w.cmd, trace := w.trace ++ [.flagArgs] }) := rfl

@[simp] theorem fcIsSet_apply (fc : FlagContext) (k : String) (w : World) :
    fcIsSet fc k w = (.ok (fc.IsSet k), { cmd := w.cmd, trace := w.trace ++ [.flagIsSet k] }) :=
  rfl

@[simp] theorem fcString_apply (fc : FlagContext) (k : String) (w : World) :
    fcString fc k w =
      (.ok (fc.String k), { cmd := w.cmd, trace := w.trace ++ [.flagString k] }) := rfl

@[simp] theorem fcInt_apply (fc : FlagContext) (k : String) (w : World) :
    fcInt fc k w = (.ok (fc.Int k), { cmd := w.cmd, trace := w.trace ++ [.flagInt k] }) := rfl

@[simp] theorem index_apply (xs : List String) (i : Nat) (w : World) :
    index xs i w = match xs.get? i with
      | some x => (.ok x, w)
      | none => (.error .indexOutOfRange, w) := by
  unfold index; cases xs.get? i <;> rfl

theorem theUI_apply (w : World) :
    theUI w = match w.cmd.ui with
      | some ui => (.ok ui, w)
      | none => (.error .nilDereference, w) := by
  unfold theUI; simp only [bind_apply, getCmd_apply]; cases w.cmd.ui <;> rfl

theorem uiFailed_apply (message : String) (w : World) :
    uiFailed message w = match w.cmd.ui with
      | some _ => (.error .failed, { cmd := w.cmd, trace := w.trace ++ [.uiFailed message] })
      | none => (.error .nilDereference, w) := by
  unfold uiFailed; simp only [bind_apply, theUI_apply]; cases w.cmd.ui <;> rfl

theorem semverMake_required : semverMake "2.36.0" = .ok ⟨2, 36, 0⟩ := rfl

theorem portWithHostnameOrPath_apply (fc : FlagContext) (w : World) :
    portWithHostnameOrPath fc w =
      (.ok (illegalFlags fc),
       { cmd := w.cmd, trace := w.trace ++ [.flagIsSet "port"] ++
          (if fc.IsSet "port" = true then
            [.flagIsSet "hostname"] ++
              (if fc.IsSet "hostname" = true then [] else [.flagIsSet "path"])
           else []) }) := by
  cases hport : fc.IsSet "port" <;> cases hhost : fc.IsSet "hostname" <;>
    simp [portWithHostnameOrPath, illegalFlags, bind_apply, pure_apply, hport, hhost]

/-- A wrong number of arguments with the UI in place: the usage error is
reported and the invocation stops there. -/
theorem Requirements_bad_count (env : Env) (fc : FlagContext) (cmd : UnmapRoute) (ui : UI)
    (hui : cmd.ui = some ui) (hargs : fc.Args.length ≠ 2) :
    run (UnmapRoute.Requirements env fc) cmd =
      (.error .failed,
       { cmd := cmd, trace := [.flagArgs, .uiFailed (incorrectUsageMessage env)] }) := by
  simp [run, UnmapRoute.Requirements, bind_apply, uiFailed_apply, hui, hargs, T,
    incorrectUsageMessage]

/-- A wrong number of arguments on a command without UI: the call on the nil
`cmd.ui` stops the invocation. -/
theorem Requirements_bad_count_nil (env : Env) (fc : FlagContext) (cmd : UnmapRoute)
    (hui : cmd.ui = none) (hargs : fc.Args.length ≠ 2) :
    run (UnmapRoute.Requirements env fc) cmd =
      (.error .nilDereference, { cmd := cmd, trace := [.flagArgs] }) := by
  simp [run, UnmapRoute.Requirements, bind_apply, uiFailed_apply, hui, hargs]

/-- Two arguments and an illegal flag combination with the UI in place. -/
theorem Requirements_illegal (env : Env) (fc : FlagContext) (cmd : UnmapRoute) (ui : UI)
    (a0 a1 : String) (hui : cmd.ui = some ui) (hargs : fc.Args = [a0, a1])
    (hflags : illegalFlags fc = true) :
    run (UnmapRoute.Requirements env fc) cmd =
      (.error .failed,
       { cmd := cmd
         trace := [.flagArgs, .flagIsSet "port", .flagIsSet "hostname"] ++
          (if fc.IsSet "hostname" = true then [] else [.flagIsSet "path"]) ++
          [.uiFailed "Cannot specify port together with hostname and/or path."] }) := by
  have hport : fc.IsSet "port" = true := by
    simp [illegalFlags] at hflags; exact hflags.1
  cases hhost : fc.IsSet "hostname" <;>
    simp [run, UnmapRoute.Requirements, bind_apply, pure_apply, portWithHostnameOrPath_apply,
      uiFailed_apply, hui, hargs, hflags, hport, hhost, T]

/-- Two arguments and a legal flag combination: the list, the stored
requirements and the calls made, whatever the fields of the command. -/
theorem Requirements_wellFormed (env : Env) (fc : FlagContext) (cmd : UnmapRoute)
    (a0 a1 : String) (hargs : fc.Args = [a0, a1]) (hflags : illegalFlags fc = false) :
    run (UnmapRoute.Requirements env fc) cmd =
      (.ok (versionRequirements env fc ++ [.login, .application ⟨a0⟩, .domain ⟨a1⟩]),
       { cmd := { cmd with appReq := some ⟨a0⟩, domainReq := some ⟨a1⟩ }
         trace := wellFormedTrace env fc a0 a1 }) := by
  by_cases hpath : fc.String "path" = "" <;>
  cases hport : fc.IsSet "port" <;>
  cases hhost : fc.IsSet "hostname" <;>
  cases hps : fc.IsSet "path" <;>
  simp [illegalFlags, hport, hhost, hps] at hflags <;>
  simp [run, UnmapRoute.Requirements, bind_apply, pure_apply, portWithHostnameOrPath_apply,
    illegalFlags, hargs, T, NewApplicationRequirement, NewDomainRequirement,
    NewLoginRequirement, NewMinAPIVersionRequirement, hpath, hport, hhost, hps,
    semverMake_required, versionRequirements, wellFormedTrace]

theorem versionRequirements_isMinAPIVersion (env : Env) (fc : FlagContext) :
    ∀ r ∈ versionRequirements env fc, r.isMinAPIVersion = true := by
  intro r hr
  simp only [versionRequirements, List.mem_append] at hr
  rcases hr with hr | hr
  · split at hr
    · simp at hr
    · simp at hr; subst hr; rfl
  · split at hr
    · simp at hr; subst hr; rfl
    · simp at hr

/-- Two arguments and an illegal flag combination on a command without UI:
the call on the nil `cmd.ui` stops the invocation. -/
theorem Requirements_illegal_nil (env : Env) (fc : FlagContext) (cmd : UnmapRoute)
    (a0 a1 : String) (hui : cmd.ui = none) (hargs : fc.Args = [a0, a1])
    (hflags : illegalFlags fc = true) :
    run (UnmapRoute.Requirements env fc) cmd =
      (.error .nilDereference,
       { cmd := cmd
         trace := [.flagArgs, .flagIsSet "port", .flagIsSet "hostname"] ++
          (if fc.IsSet "hostname" = true then [] else [.flagIsSet "path"]) }) := by
  have hport : fc.IsSet "port" = true := by
    simp [illegalFlags] at hflags; exact hflags.1
  cases hhost : fc.IsSet "hostname" <;>
    simp [run, UnmapRoute.Requirements, bind_apply, pure_apply, portWithHostnameOrPath_apply,
      uiFailed_apply, hui, hargs, hflags, hport, hhost, T]

theorem length_eq_two (xs : List String) (h : xs.length = 2) : ∃ a0 a1, xs = [a0, a1] := by
  match xs, h with
  | [a0, a1], _ => exact ⟨a0, a1, rfl⟩

/-! ## Requirements: usage errors and the list of requirements -/

/-- C1 fails as stated: on the registered command, whose `ui` is nil, a flag
context with one positional argument makes `Requirements` stop on the call on
the nil `cmd.ui`, and the failure-reporting path is not called. -/
theorem Requirements_wrong_count_without_UI :
    (mkFlagContext ["my-app"] []).Args.length ≠ 2 ∧
    (run (UnmapRoute.Requirements sampleEnv (mkFlagContext ["my-app"] []))
      UnmapRoute.registered).1 = .error .nilDereference ∧
    ∀ message, Event.uiFailed message ∉
      (run (UnmapRoute.Requirements sampleEnv (mkFlagContext ["my-app"] []))
        UnmapRoute.registered).2.trace := by
  refine ⟨by decide, rfl, ?_⟩
  intro message h
  have ht : (run (UnmapRoute.Requirements sampleEnv (mkFlagContext ["my-app"] []))
      UnmapRoute.registered).2.trace = [.flagArgs] := rfl
  rw [ht] at h
  simp at h

/-- C1, amended: for every flag context whose number of positional arguments
is not 2 and every command, `Requirements` stops without returning a list,
stores no requirement and makes no call on the factory.  On a command whose
`ui` is set it does so by calling the failure-reporting path with a message
made of "Incorrect Usage", further text, "argument" and, at the end, the
usage text of "unmap-route"; on a command whose `ui` is nil it stops on the
call on the nil field and nothing is reported. -/
theorem Requirements_wrong_argument_count (env : Env) (fc : FlagContext) (cmd : UnmapRoute)
    (hargs : fc.Args.length ≠ 2) :
    (∃ a, (run (UnmapRoute.Requirements env fc) cmd).1 = .error a) ∧
    (run (UnmapRoute.Requirements env fc) cmd).2.cmd = cmd ∧
    (∀ e ∈ (run (UnmapRoute.Requirements env fc) cmd).2.trace, e.isFactory = false) ∧
    (match cmd.ui with
      | some _ =>
        ∃ message middle : String,
        run (UnmapRoute.Requirements env fc) cmd =
          (.error .failed, { cmd := cmd, trace := [.flagArgs, .uiFailed message] }) ∧
        message = "Incorrect Usage" ++ middle ++ "argument" ++ "s\n\n"
          ++ env.CommandUsage "unmap-route"
      | none =>
        run (UnmapRoute.Requirements env fc) cmd =
          (.error .nilDereference, { cmd := cmd, trace := [.flagArgs] })) := by
  have hmsg : incorrectUsageMessage env =
      "Incorrect Usage" ++ ". Requires app_name, domain_name as " ++ "argument" ++ "s\n\n"
        ++ env.CommandUsage "unmap-route" := by
    have h : "Incorrect Usage. Requires app_name, domain_name as arguments\n\n" =
        "Incorrect Usage" ++ ". Requires app_name, domain_name as " ++ "argument" ++ "s\n\n" := by
      decide
    rw [incorrectUsageMessage, h]
  rcases cmd with ⟨ui, config, repo, ar, dr⟩
  cases ui with
  | none =>
    have h := Requirements_bad_count_nil env fc ⟨none, config, repo, ar, dr⟩ rfl hargs
    rw [h]
    refine ⟨⟨_, rfl⟩, rfl, ?_, rfl⟩
    intro e he
    simp at he
    subst he
    rfl
  | some ui =>
    have h := Requirements_bad_count env fc ⟨some ui, config, repo, ar, dr⟩ ui rfl hargs
    rw [h]
    refine ⟨⟨_, rfl⟩, rfl, ?_, incorrectUsageMessage env,
      ". Requires app_name, domain_name as ", rfl, hmsg⟩
    intro e he
    simp at he
    rcases he with rfl | rfl <;> rfl

theorem Requirements_wrong_argument_count_witness :
    (∃ a, (run (UnmapRoute.Requirements sampleEnv (mkFlagContext ["my-app"] [])) (injected findFailsRepo)).1 = .error a) ∧
    (run (UnmapRoute.Requirements sampleEnv (mkFlagContext ["my-app"] [])) (injected findFailsRepo)).2.cmd = (injected findFailsRepo) ∧
    (∀ e ∈ (run (UnmapRoute.Requirements sampleEnv (mkFlagContext ["my-app"] [])) (injected findFailsRepo)).2.trace, e.isFactory = false) ∧
    (∃ message middle : String,
        run (UnmapRoute.Requirements sampleEnv (mkFlagContext ["my-app"] [])) (injected findFailsRepo) =
          (.error .failed, { cmd := (injected findFailsRepo), trace := [.flagArgs, .uiFailed message] }) ∧
        message = "Incorrect Usage" ++ middle ++ "argument" ++ "s\n\n"
          ++ sampleEnv.CommandUsage "unmap-route") :=
  Requirements_wrong_argument_count sampleEnv (mkFlagContext ["my-app"] [])
    (injected findFailsRepo) (by decide)

/-- C2: for every flag context with exactly two positional arguments and a
legal flag combination, `Requirements` returns a list that contains the login
requirement and whose last three elements are, in order, login, the
application requirement built from the first argument and the domain
requirement built from the second; everything before them is a version
requirement. -/
theorem Requirements_login_before_entities (env : Env) (fc : FlagContext) (cmd : UnmapRoute)
    (a0 a1 : String) (hargs : fc.Args = [a0, a1])
    (hflags : (fc.IsSet "port" && (fc.IsSet "hostname" || fc.IsSet "path")) = false) :
    ∃ reqs w, run (UnmapRoute.Requirements env fc) cmd = (.ok reqs, w) ∧
      Requirement.login ∈ reqs ∧
      reqs.drop (reqs.length - 3) = [.login, .application ⟨a0⟩, .domain ⟨a1⟩] ∧
      ∀ r ∈ reqs.take (reqs.length - 3), r.isMinAPIVersion = true := by
  refine ⟨_, _, Requirements_wellFormed env fc cmd a0 a1 hargs hflags, ?_, ?_, ?_⟩
  · simp
  · simp
  · intro r hr
    have hlen : (versionRequirements env fc ++
        [Requirement.login, .application ⟨a0⟩, .domain ⟨a1⟩]).length - 3 =
        (versionRequirements env fc).length := by simp
    rw [hlen, List.take_left] at hr
    exact versionRequirements_isMinAPIVersion env fc r hr

theorem Requirements_login_before_entities_witness :
    ∃ reqs w, run (UnmapRoute.Requirements sampleEnv
        (mkFlagContext ["my-app", "example.com"] [("hostname", .str "www"), ("path", .str "/x")]))
        UnmapRoute.registered = (.ok reqs, w) ∧
      Requirement.login ∈ reqs ∧
      reqs.drop (reqs.length - 3) = [.login, .application ⟨"my-app"⟩, .domain ⟨"example.com"⟩] ∧
      ∀ r ∈ reqs.take (reqs.length - 3), r.isMinAPIVersion = true :=
  Requirements_login_before_entities sampleEnv
    (mkFlagContext ["my-app", "example.com"] [("hostname", .str "www"), ("path", .str "/x")])
    UnmapRoute.registered "my-app" "example.com" rfl rfl

/-- C3: for every flag context with exactly two positional arguments and a
legal flag combination, the list of `Requirements` holds a version requirement
for "Option '--path'" only when the path flag is set (exactly when its value
is not empty), then with version 2.36.0, and one for "Option '--port'" only
when the port flag is set (exactly then), with
`cf.TcpRoutingMinimumAPIVersion`; it holds no other version requirement, and
with neither flag set the list is exactly login, application, domain. -/
theorem Requirements_version_requirements (env : Env) (fc : FlagContext) (cmd : UnmapRoute)
    (a0 a1 : String) (hargs : fc.Args = [a0, a1])
    (hflags : (fc.IsSet "port" && (fc.IsSet "hostname" || fc.IsSet "path")) = false) :
    ∃ reqs w, run (UnmapRoute.Requirements env fc) cmd = (.ok reqs, w) ∧
      (∀ v, Requirement.minAPIVersion "Option \x27--path\x27" v ∈ reqs →
        fc.IsSet "path" = true ∧ v = ⟨2, 36, 0⟩) ∧
      (∀ v, Requirement.minAPIVersion "Option \x27--port\x27" v ∈ reqs →
        fc.IsSet "port" = true ∧ v = env.TcpRoutingMinimumAPIVersion) ∧
      (∀ r ∈ reqs, r.isMinAPIVersion = true →
        r = .minAPIVersion "Option \x27--path\x27" ⟨2, 36, 0⟩ ∨
        r = .minAPIVersion "Option \x27--port\x27" env.TcpRoutingMinimumAPIVersion) ∧
      (Requirement.minAPIVersion "Option \x27--path\x27" ⟨2, 36, 0⟩ ∈ reqs ↔
        fc.String "path" ≠ "") ∧
      (Requirement.minAPIVersion "Option \x27--port\x27" env.TcpRoutingMinimumAPIVersion ∈ reqs ↔
        fc.IsSet "port" = true) ∧
      (fc.IsSet "path" = false → fc.IsSet "port" = false →
        reqs = [.login, .application ⟨a0⟩, .domain ⟨a1⟩]) := by
  have hne : ¬ ("Option \x27--path\x27" = "Option \x27--port\x27") := by decide
  have hne2 : ¬ ("Option \x27--port\x27" = "Option \x27--path\x27") := by decide
  have hset : fc.String "path" ≠ "" → fc.IsSet "path" = true := by
    intro h
    cases hp : fc.IsSet "path"
    · exact absurd (fc.string_unset "path" hp) h
    · rfl
  refine ⟨_, _, Requirements_wellFormed env fc cmd a0 a1 hargs hflags, ?_, ?_, ?_, ?_, ?_, ?_⟩
  · intro v hv
    by_cases hpath : fc.String "path" = "" <;> by_cases hport : fc.IsSet "port" = true <;>
      simp [versionRequirements, hpath, hport, hne] at hv
    · exact ⟨hset hpath, hv⟩
    · exact ⟨hset hpath, hv⟩
  · intro v hv
    by_cases hpath : fc.String "path" = "" <;> by_cases hport : fc.IsSet "port" = true <;>
      simp [versionRequirements, hpath, hport, hne2] at hv
    · exact ⟨hport, hv⟩
    · exact ⟨hport, hv⟩
  · intro r hr hmin
    rcases List.mem_append.1 hr with h | h
    · simp only [versionRequirements, List.mem_append] at h
      rcases h with h | h <;> split at h <;> simp at h
      · exact Or.inl h
      · exact Or.inr h
    · simp at h
      rcases h with rfl | rfl | rfl <;> simp [Requirement.isMinAPIVersion] at hmin
  · by_cases hpath : fc.String "path" = "" <;> by_cases hport : fc.IsSet "port" = true <;>
      simp [versionRequirements, hpath, hport, hne]
  · by_cases hpath : fc.String "path" = "" <;> by_cases hport : fc.IsSet "port" = true <;>
      simp [versionRequirements, hpath, hport, hne2]
  · intro hp hport
    simp [versionRequirements, fc.string_unset "path" hp, hport]

theorem Requirements_version_requirements_witness :
    ∃ reqs w, run (UnmapRoute.Requirements sampleEnv
        (mkFlagContext ["my-app", "example.com"] [("port", .int 5000)]))
        (injected findFailsRepo) = (.ok reqs, w) ∧
      (∀ v, Requirement.minAPIVersion "Option \x27--path\x27" v ∈ reqs →
        (mkFlagContext ["my-app", "example.com"] [("port", .int 5000)]).IsSet "path" = true ∧
          v = ⟨2, 36, 0⟩) ∧
      (∀ v, Requirement.minAPIVersion "Option \x27--port\x27" v ∈ reqs →
        (mkFlagContext ["my-app", "example.com"] [("port", .int 5000)]).IsSet "port" = true ∧
          v = sampleEnv.TcpRoutingMinimumAPIVersion) ∧
      (∀ r ∈ reqs, r.isMinAPIVersion = true →
        r = .minAPIVersion "Option \x27--path\x27" ⟨2, 36, 0⟩ ∨
        r = .minAPIVersion "Option \x27--port\x27" sampleEnv.TcpRoutingMinimumAPIVersion) ∧
      (Requirement.minAPIVersion "Option \x27--path\x27" ⟨2, 36, 0⟩ ∈ reqs ↔
        (mkFlagContext ["my-app", "example.com"] [("port", .int 5000)]).String "path" ≠ "") ∧
      (Requirement.minAPIVersion "Option \x27--port\x27" sampleEnv.TcpRoutingMinimumAPIVersion
          ∈ reqs ↔
        (mkFlagContext ["my-app", "example.com"] [("port", .int 5000)]).IsSet "port" = true) ∧
      ((mkFlagContext ["my-app", "example.com"] [("port", .int 5000)]).IsSet "path" = false →
        (mkFlagContext ["my-app", "example.com"] [("port", .int 5000)]).IsSet "port" = false →
        reqs = [.login, .application ⟨"my-app"⟩, .domain ⟨"example.com"⟩]) :=
  Requirements_version_requirements sampleEnv
    (mkFlagContext ["my-app", "example.com"] [("port", .int 5000)])
    (injected findFailsRepo) "my-app" "example.com" rfl rfl

/-- C4 fails as stated: on the registered command, whose `ui` is nil, the
port flag set together with the path flag makes `Requirements` stop on the
call on the nil `cmd.ui`, and the failure-reporting path is not called. -/
theorem Requirements_port_conflict_without_UI :
    (conflictFlags.IsSet "port" && (conflictFlags.IsSet "hostname" ||
      conflictFlags.IsSet "path")) = true ∧
    (run (UnmapRoute.Requirements sampleEnv conflictFlags) UnmapRoute.registered).1 =
      .error .nilDereference ∧
    Event.uiFailed "Cannot specify port together with hostname and/or path." ∉
      (run (UnmapRoute.Requirements sampleEnv conflictFlags) UnmapRoute.registered).2.trace := by
  refine ⟨rfl, rfl, ?_⟩
  intro h
  have ht : (run (UnmapRoute.Requirements sampleEnv conflictFlags)
      UnmapRoute.registered).2.trace =
      [.flagArgs, .flagIsSet "port", .flagIsSet "hostname", .flagIsSet "path"] := rfl
  rw [ht] at h
  simp at h

/-- C4, amended: for every flag context with two positional arguments and
every command, the failure-reporting path is called with the message "Cannot
specify port together with hostname and/or path." only if the port flag is
set together with the hostname flag or the path flag, and with such a
combination `Requirements` stops before any requirement is constructed: no
call on the factory is in the trace and the command stores no requirement.  On
a command whose `ui` is set the report is made if and only if the combination
is illegal; on a command whose `ui` is nil the invocation stops on the call on
the nil field and nothing is reported. -/
theorem Requirements_port_conflict (env : Env) (fc : FlagContext) (cmd : UnmapRoute)
    (a0 a1 : String) (hargs : fc.Args = [a0, a1]) :
    (Event.uiFailed "Cannot specify port together with hostname and/or path." ∈
        (run (UnmapRoute.Requirements env fc) cmd).2.trace →
      (fc.IsSet "port" && (fc.IsSet "hostname" || fc.IsSet "path")) = true) ∧
    ((fc.IsSet "port" && (fc.IsSet "hostname" || fc.IsSet "path")) = true →
      (∃ a, (run (UnmapRoute.Requirements env fc) cmd).1 = .error a) ∧
      (run (UnmapRoute.Requirements env fc) cmd).2.cmd = cmd ∧
      ∀ e ∈ (run (UnmapRoute.Requirements env fc) cmd).2.trace, e.isFactory = false) ∧
    (match cmd.ui with
      | some _ =>
        (Event.uiFailed "Cannot specify port together with hostname and/or path." ∈
            (run (UnmapRoute.Requirements env fc) cmd).2.trace ↔
          (fc.IsSet "port" && (fc.IsSet "hostname" || fc.IsSet "path")) = true) ∧
        ((fc.IsSet "port" && (fc.IsSet "hostname" || fc.IsSet "path")) = true →
          (run (UnmapRoute.Requirements env fc) cmd).1 = .error .failed)
      | none =>
        (∀ message, Event.uiFailed message ∉
            (run (UnmapRoute.Requirements env fc) cmd).2.trace) ∧
        ((fc.IsSet "port" && (fc.IsSet "hostname" || fc.IsSet "path")) = true →
          (run (UnmapRoute.Requirements env fc) cmd).1 = .error .nilDereference)) := by
  have hlegal : ∀ c : UnmapRoute,
      (fc.IsSet "port" && (fc.IsSet "hostname" || fc.IsSet "path")) = false →
      Event.uiFailed "Cannot specify port together with hostname and/or path." ∉
        (run (UnmapRoute.Requirements env fc) c).2.trace := by
    intro c hflags
    rw [Requirements_wellFormed env fc c a0 a1 hargs hflags]
    by_cases hpath : fc.String "path" = "" <;> by_cases hport : fc.IsSet "port" = true <;>
      simp [wellFormedTrace, hpath, hport]
  rcases cmd with ⟨ui, config, repo, ar, dr⟩
  cases hflags : (fc.IsSet "port" && (fc.IsSet "hostname" || fc.IsSet "path"))
  · have hl := hlegal ⟨ui, config, repo, ar, dr⟩ hflags
    refine ⟨fun h => absurd h hl, by simp, ?_⟩
    cases ui with
    | none =>
      refine ⟨?_, by simp⟩
      intro message h
      rw [Requirements_wellFormed env fc _ a0 a1 hargs hflags] at h
      by_cases hpath : fc.String "path" = "" <;> by_cases hport : fc.IsSet "port" = true <;>
        simp [wellFormedTrace, hpath, hport] at h
    | some ui => exact ⟨⟨fun h => absurd h hl, by simp⟩, by simp⟩
  · cases ui with
    | none =>
      rw [Requirements_illegal_nil env fc ⟨none, config, repo, ar, dr⟩ a0 a1 rfl hargs hflags]
      have hfac : ∀ e ∈ [Event.flagArgs, .flagIsSet "port", .flagIsSet "hostname"] ++
          (if fc.IsSet "hostname" = true then [] else [Event.flagIsSet "path"]),
          e.isFactory = false := by
        intro e he
        by_cases hhost : fc.IsSet "hostname" = true <;> simp [hhost] at he <;>
          rcases he with rfl | rfl | rfl | rfl <;> rfl
      have hno : ∀ message, Event.uiFailed message ∉
          [Event.flagArgs, .flagIsSet "port", .flagIsSet "hostname"] ++
          (if fc.IsSet "hostname" = true then [] else [Event.flagIsSet "path"]) := by
        intro message
        by_cases hhost : fc.IsSet "hostname" = true <;> simp [hhost]
      exact ⟨fun _ => rfl, fun _ => ⟨⟨_, rfl⟩, rfl, hfac⟩, hno, fun _ => rfl⟩
    | some ui =>
      rw [Requirements_illegal env fc ⟨some ui, config, repo, ar, dr⟩ ui a0 a1 rfl hargs hflags]
      have hfac : ∀ e ∈ [Event.flagArgs, .flagIsSet "port", .flagIsSet "hostname"] ++
          (if fc.IsSet "hostname" = true then [] else [Event.flagIsSet "path"]) ++
          [Event.uiFailed "Cannot specify port together with hostname and/or path."],
          e.isFactory = false := by
        intro e he
        by_cases hhost : fc.IsSet "hostname" = true <;> simp [hhost] at he <;>
          rcases he with rfl | rfl | rfl | rfl | rfl <;> rfl
      exact ⟨fun _ => rfl, fun _ => ⟨⟨_, rfl⟩, rfl, hfac⟩, ⟨by simp, fun _ => rfl⟩⟩

theorem Requirements_port_conflict_witness :
    (Event.uiFailed "Cannot specify port together with hostname and/or path." ∈
        (run (UnmapRoute.Requirements sampleEnv conflictFlags) (injected findFailsRepo)).2.trace →
      (conflictFlags.IsSet "port" && (conflictFlags.IsSet "hostname" || conflictFlags.IsSet "path")) = true) ∧
    ((conflictFlags.IsSet "port" && (conflictFlags.IsSet "hostname" || conflictFlags.IsSet "path")) = true →
      (∃ a, (run (UnmapRoute.Requirements sampleEnv conflictFlags) (injected findFailsRepo)).1 = .error a) ∧
      (run (UnmapRoute.Requirements sampleEnv conflictFlags) (injected findFailsRepo)).2.cmd = (injected findFailsRepo) ∧
      ∀ e ∈ (run (UnmapRoute.Requirements sampleEnv conflictFlags) (injected findFailsRepo)).2.trace, e.isFactory = false) ∧
    ((Event.uiFailed "Cannot specify port together with hostname and/or path." ∈
            (run (UnmapRoute.Requirements sampleEnv conflictFlags) (injected findFailsRepo)).2.trace ↔
          (conflictFlags.IsSet "port" && (conflictFlags.IsSet "hostname" || conflictFlags.IsSet "path")) = true) ∧
        ((conflictFlags.IsSet "port" && (conflictFlags.IsSet "hostname" || conflictFlags.IsSet "path")) = true →
          (run (UnmapRoute.Requirements sampleEnv conflictFlags) (injected findFailsRepo)).1 = .error .failed)) :=
  Requirements_port_conflict sampleEnv conflictFlags (injected findFailsRepo)
    "my-app" "example.com" rfl

/-! ## Execute -/

theorem theRouteRepo_apply (w : World) :
    theRouteRepo w = match w.cmd.routeRepo with
      | some repo => (.ok repo, w)
      | none => (.error .nilDereference, w) := by
  unfold theRouteRepo; simp only [bind_apply, getCmd_apply]; cases w.cmd.routeRepo <;> rfl

theorem theConfig_apply (w : World) :
    theConfig w = match w.cmd.config with
      | some config => (.ok config, w)
      | none => (.error .nilDereference, w) := by
  unfold theConfig; simp only [bind_apply, getCmd_apply]; cases w.cmd.config <;> rfl

theorem GetDomain_apply (env : Env) (w : World) :
    GetDomain env w = match w.cmd.domainReq with
      | some r => (.ok (env.GetDomain r), w)
      | none => (.error .nilDereference, w) := by
  unfold GetDomain; simp only [bind_apply, getCmd_apply]; cases w.cmd.domainReq <;> rfl

theorem GetApplication_apply (env : Env) (w : World) :
    GetApplication env w = match w.cmd.appReq with
      | some r => (.ok (env.GetApplication r), w)
      | none => (.error .nilDereference, w) := by
  unfold GetApplication; simp only [bind_apply, getCmd_apply]; cases w.cmd.appReq <;> rfl

theorem repoUnbind_apply (routeGUID appGUID : String) (w : World) :
    repoUnbind routeGUID appGUID w = match w.cmd.routeRepo with
      | some repo => (.ok (repo.Unbind routeGUID appGUID),
          { cmd := w.cmd, trace := w.trace ++ [.repoUnbind routeGUID appGUID] })
      | none => (.error .nilDereference, w) := by
  unfold repoUnbind; simp only [bind_apply, theRouteRepo_apply]
  cases w.cmd.routeRepo <;> rfl

theorem repoFind_apply (hostName : String) (domain : DomainFields) (path : String) (port : Int)
    (w : World) :
    repoFind hostName domain path port w = match w.cmd.routeRepo with
      | some repo => (.ok (repo.Find hostName domain path port),
          { cmd := w.cmd, trace := w.trace ++ [.repoFind hostName domain path port] })
      | none => (.error .nilDereference, w) := by
  unfold repoFind; simp only [bind_apply, theRouteRepo_apply]
  cases w.cmd.routeRepo <;> rfl

theorem uiSay_apply (message : String) (args : List (String × String)) (w : World) :
    uiSay message args w = match w.cmd.ui with
      | some _ => (.ok (), { cmd := w.cmd, trace := w.trace ++ [.uiSay message args] })
      | none => (.error .nilDereference, w) := by
  unfold uiSay; simp only [bind_apply, theUI_apply]; cases w.cmd.ui <;> rfl

theorem uiOk_apply (w : World) :
    uiOk w = match w.cmd.ui with
      | some _ => (.ok (), { cmd := w.cmd, trace := w.trace ++ [.uiOk] })
      | none => (.error .nilDereference, w) := by
  unfold uiOk; simp only [bind_apply, theUI_apply]; cases w.cmd.ui <;> rfl

theorem uiWarn_apply (message : String) (w : World) :
    uiWarn message w = match w.cmd.ui with
      | some _ => (.ok (), { cmd := w.cmd, trace := w.trace ++ [.uiWarn message] })
      | none => (.error .nilDereference, w) := by
  unfold uiWarn; simp only [bind_apply, theUI_apply]; cases w.cmd.ui <;> rfl

/-- The loop of `Execute` on a command with UI and repository: without a bound
application of the GUID nothing happens; otherwise `Unbind` is called once and
the loop ends, with the failure report when `Unbind` returns an error. -/
theorem unbindFirstMatch_apply (route : Route) (app : Application) (ui : UI)
    (repo : RouteRepository) (apps : List ApplicationFields) (w : World)
    (hui : w.cmd.ui = some ui) (hrepo : w.cmd.routeRepo = some repo) :
    unbindFirstMatch route app apps w =
      if boundTo apps app = true then
        match repo.Unbind route.GUID app.GUID with
        | none => (.ok true,
            { cmd := w.cmd, trace := w.trace ++ [.repoUnbind route.GUID app.GUID] })
        | some e => (.error .failed,
            { cmd := w.cmd
              trace := w.trace ++ [.repoUnbind route.GUID app.GUID, .uiFailed e.Error] })
      else (.ok false, w) := by
  induction apps with
  | nil => simp [unbindFirstMatch, boundTo, pure_apply]
  | cons routeApp rest ih =>
    by_cases h : routeApp.GUID = app.GUID
    · cases hu : repo.Unbind route.GUID app.GUID <;>
        simp [unbindFirstMatch, boundTo, h, bind_apply, pure_apply, repoUnbind_apply,
          uiFailed_apply, hui, hrepo, hu]
    · have hb : boundTo (routeApp :: rest) app = boundTo rest app := by
        simp [boundTo, h]
      rw [hb, ← ih]
      simp [unbindFirstMatch, h]

theorem boundTo_eq_false (apps : List ApplicationFields) (app : Application)
    (h : ∀ routeApp ∈ apps, routeApp.GUID ≠ app.GUID) : boundTo apps app = false := by
  simp only [boundTo, List.any_eq_false, decide_eq_true_eq]
  exact h

theorem boundTo_eq_true (apps : List ApplicationFields) (app : Application)
    (h : ∃ routeApp ∈ apps, routeApp.GUID = app.GUID) : boundTo apps app = true := by
  simp only [boundTo, List.any_eq_true, decide_eq_true_eq]
  exact h

/-- The method `Execute` on a command that has its collaborators and its two
requirements: what it returns and the calls it makes, by the result of `Find`,
by whether the route is bound to the application and by the result of
`Unbind`. -/
theorem Execute_apply (env : Env) (c : FlagContext) (cmd : UnmapRoute) (ui : UI)
    (config : Config) (repo : RouteRepository) (ar : ApplicationRequirement)
    (dr : DomainRequirement) (hui : cmd.ui = some ui) (hconfig : cmd.config = some config)
    (hrepo : cmd.routeRepo = some repo) (har : cmd.appReq = some ar)
    (hdr : cmd.domainReq = some dr) :
    run (UnmapRoute.Execute env c) cmd =
      match repo.Find (c.String "n") (env.GetDomain dr) (c.String "path") (c.Int "port") with
      | (_, some e) =>
        (.error .failed, { cmd := cmd, trace := findTrace env c dr ++ [.uiFailed e.Error] })
      | (route, none) =>
        if boundTo route.Apps (env.GetApplication ar) = true then
          match repo.Unbind route.GUID (env.GetApplication ar).GUID with
          | none => (.ok (),
              { cmd := cmd
                trace := findTrace env c dr ++
                  [progressSay env route (env.GetApplication ar) config,
                    .repoUnbind route.GUID (env.GetApplication ar).GUID, .uiOk] })
          | some e => (.error .failed,
              { cmd := cmd
                trace := findTrace env c dr ++
                  [progressSay env route (env.GetApplication ar) config,
                    .repoUnbind route.GUID (env.GetApplication ar).GUID, .uiFailed e.Error] })
        else (.ok (),
          { cmd := cmd
            trace := findTrace env c dr ++
              [progressSay env route (env.GetApplication ar) config, .uiOk,
                .uiWarn "\nRoute to be unmapped is not currently mapped to the application."] }) := by
  rcases hfind : repo.Find (c.String "n") (env.GetDomain dr) (c.String "path") (c.Int "port")
    with ⟨route, err⟩
  cases err with
  | some e =>
    simp [run, UnmapRoute.Execute, bind_apply, GetDomain_apply, GetApplication_apply,
      repoFind_apply, uiFailed_apply, hui, hrepo, har, hdr, hfind, findTrace]
  | none =>
    have hloop := fun t =>
      unbindFirstMatch_apply route (env.GetApplication ar) ui repo route.Apps
        { cmd := cmd, trace := t } hui hrepo
    cases hb : boundTo route.Apps (env.GetApplication ar)
    · simp [run, UnmapRoute.Execute, bind_apply, pure_apply, GetDomain_apply,
        GetApplication_apply, repoFind_apply, theConfig_apply, uiSay_apply, uiOk_apply,
        uiWarn_apply, hui, hconfig, hrepo, har, hdr, hfind, findTrace, progressSay, T,
        hloop, hb]
    · cases hu : repo.Unbind route.GUID (env.GetApplication ar).GUID <;>
        simp [run, UnmapRoute.Execute, bind_apply, pure_apply, GetDomain_apply,
          GetApplication_apply, repoFind_apply, theConfig_apply, uiSay_apply, uiOk_apply,
          uiWarn_apply, hui, hconfig, hrepo, har, hdr, hfind, findTrace, progressSay, T,
          hloop, hb, hu]

/-- C5: when `Find` returns a route without error and no application bound to
the route has the GUID of the target application (an empty list included),
`Execute` returns normally after exactly these calls: the three flag queries,
`Find`, the progress message, the confirmation `Ok` and then the warning whose
text is a line break followed by "Route to be unmapped is not currently mapped
to the application."; so `Unbind` and the failure-reporting path are not
called. -/
theorem Execute_route_not_mapped (env : Env) (c : FlagContext) (cmd : UnmapRoute) (ui : UI)
    (config : Config) (repo : RouteRepository) (ar : ApplicationRequirement)
    (dr : DomainRequirement) (route : Route)
    (hui : cmd.ui = some ui) (hconfig : cmd.config = some config)
    (hrepo : cmd.routeRepo = some repo) (har : cmd.appReq = some ar)
    (hdr : cmd.domainReq = some dr)
    (hfind : repo.Find (c.String "n") (env.GetDomain dr) (c.String "path") (c.Int "port") =
      (route, none))
    (hnot : ∀ routeApp ∈ route.Apps, routeApp.GUID ≠ (env.GetApplication ar).GUID) :
    run (UnmapRoute.Execute env c) cmd =
      (.ok (),
       { cmd := cmd
         trace := findTrace env c dr ++
          [progressSay env route (env.GetApplication ar) config, .uiOk,
            .uiWarn ("\n" ++ "Route to be unmapped is not currently mapped to the application.")] }) ∧
    (∀ e ∈ (run (UnmapRoute.Execute env c) cmd).2.trace,
      (∀ routeGUID appGUID, e ≠ .repoUnbind routeGUID appGUID) ∧ ∀ message, e ≠ .uiFailed message) := by
  have h := Execute_apply env c cmd ui config repo ar dr hui hconfig hrepo har hdr
  rw [hfind] at h
  simp only [boundTo_eq_false route.Apps (env.GetApplication ar) hnot] at h
  have hmsg : "\n" ++ "Route to be unmapped is not currently mapped to the application." =
      "\nRoute to be unmapped is not currently mapped to the application." := by decide
  rw [hmsg, h]
  refine ⟨by simp, ?_⟩
  intro e he
  simp [findTrace, progressSay] at he
  rcases he with rfl | rfl | rfl | rfl | rfl | rfl | rfl <;> simp

theorem Execute_route_not_mapped_witness :
    run (UnmapRoute.Execute sampleEnv plainFlags) (ready (sampleRepo otherRoute)) =
      (.ok (),
       { cmd := ready (sampleRepo otherRoute)
         trace := findTrace sampleEnv plainFlags ⟨"example.com"⟩ ++
          [progressSay sampleEnv otherRoute (sampleEnv.GetApplication ⟨"my-app"⟩)
              ⟨"my-org", "my-space", "my-user"⟩, .uiOk,
            .uiWarn ("\n" ++ "Route to be unmapped is not currently mapped to the application.")] }) ∧
    (∀ e ∈ (run (UnmapRoute.Execute sampleEnv plainFlags) (ready (sampleRepo otherRoute))).2.trace,
      (∀ routeGUID appGUID, e ≠ .repoUnbind routeGUID appGUID) ∧ ∀ message, e ≠ .uiFailed message) :=
  Execute_route_not_mapped sampleEnv plainFlags (ready (sampleRepo otherRoute)) ⟨1⟩
    ⟨"my-org", "my-space", "my-user"⟩ (sampleRepo otherRoute) ⟨"my-app"⟩ ⟨"example.com"⟩
    otherRoute rfl rfl rfl rfl rfl rfl (by decide)

/-- C6: in `Execute`, whenever `Find` returns an error `e`, or `Unbind`
(called for a route that `Find` returned without error and that is bound to
the application) returns an error `e`, the invocation ends in the
failure-reporting path, called last and only once, with exactly `e.Error()`
as its message. -/
theorem Execute_error_message_verbatim (env : Env) (c : FlagContext) (cmd : UnmapRoute)
    (ui : UI) (config : Config) (repo : RouteRepository) (ar : ApplicationRequirement)
    (dr : DomainRequirement) (route : Route) (e : GoError)
    (hui : cmd.ui = some ui) (hconfig : cmd.config = some config)
    (hrepo : cmd.routeRepo = some repo) (har : cmd.appReq = some ar)
    (hdr : cmd.domainReq = some dr)
    (herr :
      repo.Find (c.String "n") (env.GetDomain dr) (c.String "path") (c.Int "port") =
        (route, some e) ∨
      (repo.Find (c.String "n") (env.GetDomain dr) (c.String "path") (c.Int "port") =
        (route, none) ∧
       (∃ routeApp ∈ route.Apps, routeApp.GUID = (env.GetApplication ar).GUID) ∧
       repo.Unbind route.GUID (env.GetApplication ar).GUID = some e)) :
    (∃ before, (run (UnmapRoute.Execute env c) cmd).2.trace = before ++ [.uiFailed e.Error] ∧
      ∀ message, Event.uiFailed message ∉ before) ∧
    (run (UnmapRoute.Execute env c) cmd).1 = .error .failed := by
  have h := Execute_apply env c cmd ui config repo ar dr hui hconfig hrepo har hdr
  rcases herr with hfind | ⟨hfind, hbound, hunbind⟩
  · rw [hfind] at h
    rw [h]
    exact ⟨⟨findTrace env c dr, rfl, by simp [findTrace]⟩, rfl⟩
  · rw [hfind] at h
    simp only [boundTo_eq_true route.Apps (env.GetApplication ar) hbound, hunbind] at h
    rw [h]
    refine ⟨⟨findTrace env c dr ++ [progressSay env route (env.GetApplication ar) config,
      .repoUnbind route.GUID (env.GetApplication ar).GUID], by simp, ?_⟩, rfl⟩
    simp [findTrace, progressSay]

theorem Execute_error_message_verbatim_witness :
    ((∃ before, (run (UnmapRoute.Execute sampleEnv plainFlags) (ready findFailsRepo)).2.trace =
          before ++ [.uiFailed "api error"] ∧
        ∀ message, Event.uiFailed message ∉ before) ∧
      (run (UnmapRoute.Execute sampleEnv plainFlags) (ready findFailsRepo)).1 = .error .failed) ∧
    ((∃ before, (run (UnmapRoute.Execute sampleEnv plainFlags)
          (ready (unbindFailsRepo boundRoute))).2.trace =
          before ++ [.uiFailed "unbind error"] ∧
        ∀ message, Event.uiFailed message ∉ before) ∧
      (run (UnmapRoute.Execute sampleEnv plainFlags) (ready (unbindFailsRepo boundRoute))).1 =
        .error .failed) :=
  ⟨Execute_error_message_verbatim sampleEnv plainFlags (ready findFailsRepo) ⟨1⟩
      ⟨"my-org", "my-space", "my-user"⟩ findFailsRepo ⟨"my-app"⟩ ⟨"example.com"⟩ ⟨"", "", []⟩
      ⟨"api error"⟩ rfl rfl rfl rfl rfl (Or.inl rfl),
   Execute_error_message_verbatim sampleEnv plainFlags (ready (unbindFailsRepo boundRoute)) ⟨1⟩
      ⟨"my-org", "my-space", "my-user"⟩ (unbindFailsRepo boundRoute) ⟨"my-app"⟩
      ⟨"example.com"⟩ boundRoute ⟨"unbind error"⟩ rfl rfl rfl rfl rfl
      (Or.inr ⟨rfl, by decide, rfl⟩)⟩

/-- C7: in `Execute`, a reported failure prevents every later step.  When
`Find` returns an error, the progress message is not said, `Unbind` is not
called and `Ok` is not printed; when `Unbind` returns an error, `Ok` is not
printed and no warning is emitted.  In both cases the invocation stops in the
failure-reporting path. -/
theorem Execute_failure_prevents_later_steps (env : Env) (c : FlagContext) (cmd : UnmapRoute)
    (ui : UI) (config : Config) (repo : RouteRepository) (ar : ApplicationRequirement)
    (dr : DomainRequirement) (route : Route) (e : GoError)
    (hui : cmd.ui = some ui) (hconfig : cmd.config = some config)
    (hrepo : cmd.routeRepo = some repo) (har : cmd.appReq = some ar)
    (hdr : cmd.domainReq = some dr)
    (herr :
      repo.Find (c.String "n") (env.GetDomain dr) (c.String "path") (c.Int "port") =
        (route, some e) ∨
      (repo.Find (c.String "n") (env.GetDomain dr) (c.String "path") (c.Int "port") =
        (route, none) ∧
       (∃ routeApp ∈ route.Apps, routeApp.GUID = (env.GetApplication ar).GUID) ∧
       repo.Unbind route.GUID (env.GetApplication ar).GUID = some e)) :
    (run (UnmapRoute.Execute env c) cmd).1 = .error .failed ∧
    (∀ ev ∈ (run (UnmapRoute.Execute env c) cmd).2.trace,
      ev ≠ .uiOk ∧ ∀ message, ev ≠ .uiWarn message) ∧
    (repo.Find (c.String "n") (env.GetDomain dr) (c.String "path") (c.Int "port") =
        (route, some e) →
      ∀ ev ∈ (run (UnmapRoute.Execute env c) cmd).2.trace,
        (∀ message args, ev ≠ .uiSay message args) ∧
        ∀ routeGUID appGUID, ev ≠ .repoUnbind routeGUID appGUID) := by
  have h := Execute_apply env c cmd ui config repo ar dr hui hconfig hrepo har hdr
  rcases herr with hfind | ⟨hfind, hbound, hunbind⟩
  · rw [hfind] at h
    rw [h]
    refine ⟨rfl, ?_, fun _ => ?_⟩ <;>
    · intro ev hev
      simp [findTrace] at hev
      rcases hev with rfl | rfl | rfl | rfl | rfl <;> simp
  · have hfind2 := hfind
    rw [hfind] at h
    simp only [boundTo_eq_true route.Apps (env.GetApplication ar) hbound, hunbind] at h
    rw [h]
    refine ⟨rfl, ?_, fun hf => ?_⟩
    · intro ev hev
      simp [findTrace, progressSay] at hev
      rcases hev with rfl | rfl | rfl | rfl | rfl | rfl | rfl <;> simp
    · rw [hfind2] at hf
      simp at hf

theorem Execute_failure_prevents_later_steps_witness :
    ((run (UnmapRoute.Execute sampleEnv plainFlags) (ready findFailsRepo)).1 = .error .failed ∧
      (∀ ev ∈ (run (UnmapRoute.Execute sampleEnv plainFlags) (ready findFailsRepo)).2.trace,
        ev ≠ .uiOk ∧ ∀ message, ev ≠ .uiWarn message) ∧
      (findFailsRepo.Find (plainFlags.String "n") (sampleEnv.GetDomain ⟨"example.com"⟩)
          (plainFlags.String "path") (plainFlags.Int "port") =
          ((⟨"", "", []⟩ : Route), some ⟨"api error"⟩) →
        ∀ ev ∈ (run (UnmapRoute.Execute sampleEnv plainFlags) (ready findFailsRepo)).2.trace,
          (∀ message args, ev ≠ .uiSay message args) ∧
          ∀ routeGUID appGUID, ev ≠ .repoUnbind routeGUID appGUID)) ∧
    ((run (UnmapRoute.Execute sampleEnv plainFlags) (ready (unbindFailsRepo boundRoute))).1 =
        .error .failed ∧
      (∀ ev ∈ (run (UnmapRoute.Execute sampleEnv plainFlags)
          (ready (unbindFailsRepo boundRoute))).2.trace,
        ev ≠ .uiOk ∧ ∀ message, ev ≠ .uiWarn message) ∧
      ((unbindFailsRepo boundRoute).Find (plainFlags.String "n")
          (sampleEnv.GetDomain ⟨"example.com"⟩) (plainFlags.String "path")
          (plainFlags.Int "port") = (boundRoute, some ⟨"unbind error"⟩) →
        ∀ ev ∈ (run (UnmapRoute.Execute sampleEnv plainFlags)
            (ready (unbindFailsRepo boundRoute))).2.trace,
          (∀ message args, ev ≠ .uiSay message args) ∧
          ∀ routeGUID appGUID, ev ≠ .repoUnbind routeGUID appGUID)) :=
  ⟨Execute_failure_prevents_later_steps sampleEnv plainFlags (ready findFailsRepo) ⟨1⟩
      ⟨"my-org", "my-space", "my-user"⟩ findFailsRepo ⟨"my-app"⟩ ⟨"example.com"⟩ ⟨"", "", []⟩
      ⟨"api error"⟩ rfl rfl rfl rfl rfl (Or.inl rfl),
   Execute_failure_prevents_later_steps sampleEnv plainFlags
      (ready (unbindFailsRepo boundRoute)) ⟨1⟩ ⟨"my-org", "my-space", "my-user"⟩
      (unbindFailsRepo boundRoute) ⟨"my-app"⟩ ⟨"example.com"⟩ boundRoute ⟨"unbind error"⟩
      rfl rfl rfl rfl rfl (Or.inr ⟨rfl, by decide, rfl⟩)⟩

/-! ## The order of `SetDependency` and `Requirements` -/

/-- Every call of `Requirements` is one of `requirementsEvent`, whatever the
command and the flag context. -/
theorem Requirements_events (env : Env) (fc : FlagContext) (cmd : UnmapRoute) :
    ∀ e ∈ (run (UnmapRoute.Requirements env fc) cmd).2.trace, requirementsEvent e = true := by
  intro e he
  by_cases hlen : fc.Args.length = 2
  · obtain ⟨a0, a1, hargs⟩ := length_eq_two fc.Args hlen
    cases hflags : illegalFlags fc
    · rw [Requirements_wellFormed env fc cmd a0 a1 hargs hflags] at he
      by_cases hpath : fc.String "path" = "" <;> by_cases hport : fc.IsSet "port" = true <;>
        simp [wellFormedTrace, hpath, hport] at he <;>
        rcases he with rfl | rfl | rfl | rfl | rfl | rfl | rfl | rfl | rfl | rfl | rfl | rfl <;>
        rfl
    · cases hui : cmd.ui with
      | none =>
        rw [Requirements_illegal_nil env fc cmd a0 a1 hui hargs hflags] at he
        by_cases hhost : fc.IsSet "hostname" = true <;> simp [hhost] at he <;>
          rcases he with rfl | rfl | rfl | rfl <;> rfl
      | some ui =>
        rw [Requirements_illegal env fc cmd ui a0 a1 hui hargs hflags] at he
        by_cases hhost : fc.IsSet "hostname" = true <;> simp [hhost] at he <;>
          rcases he with rfl | rfl | rfl | rfl | rfl <;> rfl
  · cases hui : cmd.ui with
    | none =>
      rw [Requirements_bad_count_nil env fc cmd hui hlen] at he
      simp at he
      subst he
      rfl
    | some ui =>
      rw [Requirements_bad_count env fc cmd ui hui hlen] at he
      simp at he
      rcases he with rfl | rfl <;> rfl

/-- C8 fails as stated, in its clause that `Requirements` uses no collaborator
that only `SetDependency` provides: on the registered command, before
`SetDependency`, `Requirements` without arguments reaches for `cmd.ui`, which
is still nil, and the invocation stops on that call; after `SetDependency` the
same call of `Requirements` makes the failure report on the output sink. -/
theorem Requirements_uses_the_injected_UI :
    run (UnmapRoute.Requirements sampleEnv (mkFlagContext [] [])) UnmapRoute.registered =
      (.error .nilDereference, { cmd := UnmapRoute.registered, trace := [.flagArgs] }) ∧
    (run (do
        let _ ← UnmapRoute.SetDependency (sampleDeps findFailsRepo) false
        UnmapRoute.Requirements sampleEnv (mkFlagContext [] [])) UnmapRoute.registered).2.trace =
      [.flagArgs, .uiFailed
        "Incorrect Usage. Requires app_name, domain_name as arguments\n\nUSAGE of unmap-route"] :=
  ⟨rfl, rfl⟩

/-- What `Requirements` leaves alone, whatever the command and the flag
context: the fields `ui`, `config` and `routeRepo`; and on a command whose
`ui` is nil no call on the output sink is in its trace. -/
theorem Requirements_frame (env : Env) (fc : FlagContext) (cmd : UnmapRoute) :
    (run (UnmapRoute.Requirements env fc) cmd).2.cmd.ui = cmd.ui ∧
    (run (UnmapRoute.Requirements env fc) cmd).2.cmd.config = cmd.config ∧
    (run (UnmapRoute.Requirements env fc) cmd).2.cmd.routeRepo = cmd.routeRepo ∧
    (cmd.ui = none →
      ∀ e ∈ (run (UnmapRoute.Requirements env fc) cmd).2.trace, e.isUI = false) := by
  by_cases hlen : fc.Args.length = 2
  · obtain ⟨a0, a1, hargs⟩ := length_eq_two fc.Args hlen
    cases hflags : illegalFlags fc
    · rw [Requirements_wellFormed env fc cmd a0 a1 hargs hflags]
      refine ⟨rfl, rfl, rfl, fun _ e he => ?_⟩
      by_cases hpath : fc.String "path" = "" <;> by_cases hport : fc.IsSet "port" = true <;>
        simp [wellFormedTrace, hpath, hport] at he <;>
        rcases he with rfl | rfl | rfl | rfl | rfl | rfl | rfl | rfl | rfl | rfl | rfl | rfl <;>
        rfl
    · cases hui : cmd.ui with
      | none =>
        rw [Requirements_illegal_nil env fc cmd a0 a1 hui hargs hflags]
        refine ⟨hui, rfl, rfl, fun _ e he => ?_⟩
        by_cases hhost : fc.IsSet "hostname" = true <;> simp [hhost] at he <;>
          rcases he with rfl | rfl | rfl | rfl <;> rfl
      | some ui =>
        rw [Requirements_illegal env fc cmd ui a0 a1 hui hargs hflags]
        exact ⟨hui, rfl, rfl, fun h => by simp at h⟩
  · cases hui : cmd.ui with
    | none =>
      rw [Requirements_bad_count_nil env fc cmd hui hlen]
      refine ⟨hui, rfl, rfl, fun _ e he => ?_⟩
      simp at he
      subst he
      rfl
    | some ui =>
      rw [Requirements_bad_count env fc cmd ui hui hlen]
      exact ⟨hui, rfl, rfl, fun h => by simp at h⟩

/-- C8, amended: before `SetDependency` has been called, that is on a command
whose `ui` is nil, `Requirements` makes no call on the output sink (the
failure-reporting path included) and no call on the repository, for every
flag context; and on every command it makes no repository call and leaves
`ui`, `config` and `routeRepo` untouched.  With exactly two positional
arguments and a legal flag combination it uses no collaborator that
`SetDependency` provides: it returns a list, and its result and its calls are
the same for every state of the command.  With another number of arguments,
or the port flag set together with the hostname or the path flag, it does use
`cmd.ui`: before `SetDependency` the invocation stops on the nil field, and
on a command whose `ui` is set `Requirements` makes the failure report
itself. -/
theorem Requirements_needs_dependency_only_to_fail (env : Env) (fc : FlagContext)
    (cmd : UnmapRoute) (hui : cmd.ui = none) :
    (∀ e ∈ (run (UnmapRoute.Requirements env fc) cmd).2.trace,
      e.isUI = false ∧ e.isRepo = false) ∧
    (∀ cmd2 : UnmapRoute,
      (∀ e ∈ (run (UnmapRoute.Requirements env fc) cmd2).2.trace, e.isRepo = false) ∧
      (run (UnmapRoute.Requirements env fc) cmd2).2.cmd.ui = cmd2.ui ∧
      (run (UnmapRoute.Requirements env fc) cmd2).2.cmd.config = cmd2.config ∧
      (run (UnmapRoute.Requirements env fc) cmd2).2.cmd.routeRepo = cmd2.routeRepo) ∧
    (fc.Args.length = 2 →
      (fc.IsSet "port" && (fc.IsSet "hostname" || fc.IsSet "path")) = false →
      (∃ reqs, (run (UnmapRoute.Requirements env fc) cmd).1 = .ok reqs) ∧
      ∀ cmd2 : UnmapRoute,
        (run (UnmapRoute.Requirements env fc) cmd2).1 =
          (run (UnmapRoute.Requirements env fc) cmd).1 ∧
        (run (UnmapRoute.Requirements env fc) cmd2).2.trace =
          (run (UnmapRoute.Requirements env fc) cmd).2.trace) ∧
    ((fc.Args.length ≠ 2 ∨
        (fc.IsSet "port" && (fc.IsSet "hostname" || fc.IsSet "path")) = true) →
      (run (UnmapRoute.Requirements env fc) cmd).1 = .error .nilDereference ∧
      ∀ cmd2 : UnmapRoute, cmd2.ui ≠ none →
        (run (UnmapRoute.Requirements env fc) cmd2).1 = .error .failed ∧
        ∃ message, Event.uiFailed message ∈
          (run (UnmapRoute.Requirements env fc) cmd2).2.trace) := by
  have hrepo : ∀ c : UnmapRoute, ∀ e ∈ (run (UnmapRoute.Requirements env fc) c).2.trace,
      e.isRepo = false := by
    intro c e he
    have hev := Requirements_events env fc c e he
    cases e <;> simp [requirementsEvent] at hev <;> rfl
  refine ⟨fun e he => ⟨(Requirements_frame env fc cmd).2.2.2 hui e he, hrepo cmd e he⟩,
    fun cmd2 => ⟨hrepo cmd2, (Requirements_frame env fc cmd2).1,
      (Requirements_frame env fc cmd2).2.1, (Requirements_frame env fc cmd2).2.2.1⟩, ?_, ?_⟩
  · intro hlen hflags
    obtain ⟨a0, a1, hargs⟩ := length_eq_two fc.Args hlen
    rw [Requirements_wellFormed env fc cmd a0 a1 hargs hflags]
    refine ⟨⟨_, rfl⟩, fun cmd2 => ?_⟩
    rw [Requirements_wellFormed env fc cmd2 a0 a1 hargs hflags]
    exact ⟨rfl, rfl⟩
  · intro hbad
    by_cases hlen : fc.Args.length = 2
    · obtain ⟨a0, a1, hargs⟩ := length_eq_two fc.Args hlen
      have hflags : illegalFlags fc = true := by
        rcases hbad with h | h
        · exact absurd hlen h
        · exact h
      rw [Requirements_illegal_nil env fc cmd a0 a1 hui hargs hflags]
      refine ⟨rfl, fun cmd2 h2 => ?_⟩
      cases hui2 : cmd2.ui with
      | none => exact absurd hui2 h2
      | some ui =>
        rw [Requirements_illegal env fc cmd2 ui a0 a1 hui2 hargs hflags]
        exact ⟨rfl, "Cannot specify port together with hostname and/or path.", by simp⟩
    · rw [Requirements_bad_count_nil env fc cmd hui hlen]
      refine ⟨rfl, fun cmd2 h2 => ?_⟩
      cases hui2 : cmd2.ui with
      | none => exact absurd hui2 h2
      | some ui =>
        rw [Requirements_bad_count env fc cmd2 ui hui2 hlen]
        exact ⟨rfl, incorrectUsageMessage env, by simp⟩

theorem Requirements_needs_dependency_only_to_fail_witness :
    (∀ e ∈ (run (UnmapRoute.Requirements sampleEnv conflictFlags) UnmapRoute.registered).2.trace,
      e.isUI = false ∧ e.isRepo = false) ∧
    (∀ cmd2 : UnmapRoute,
      (∀ e ∈ (run (UnmapRoute.Requirements sampleEnv conflictFlags) cmd2).2.trace, e.isRepo = false) ∧
      (run (UnmapRoute.Requirements sampleEnv conflictFlags) cmd2).2.cmd.ui = cmd2.ui ∧
      (run (UnmapRoute.Requirements sampleEnv conflictFlags) cmd2).2.cmd.config = cmd2.config ∧
      (run (UnmapRoute.Requirements sampleEnv conflictFlags) cmd2).2.cmd.routeRepo = cmd2.routeRepo) ∧
    (conflictFlags.Args.length = 2 →
      (conflictFlags.IsSet "port" && (conflictFlags.IsSet "hostname" || conflictFlags.IsSet "path")) = false →
      (∃ reqs, (run (UnmapRoute.Requirements sampleEnv conflictFlags) UnmapRoute.registered).1 = .ok reqs) ∧
      ∀ cmd2 : UnmapRoute,
        (run (UnmapRoute.Requirements sampleEnv conflictFlags) cmd2).1 =
          (run (UnmapRoute.Requirements sampleEnv conflictFlags) UnmapRoute.registered).1 ∧
        (run (UnmapRoute.Requirements sampleEnv conflictFlags) cmd2).2.trace =
          (run (UnmapRoute.Requirements sampleEnv conflictFlags) UnmapRoute.registered).2.trace) ∧
    ((conflictFlags.Args.length ≠ 2 ∨
        (conflictFlags.IsSet "port" && (conflictFlags.IsSet "hostname" || conflictFlags.IsSet "path")) = true) →
      (run (UnmapRoute.Requirements sampleEnv conflictFlags) UnmapRoute.registered).1 = .error .nilDereference ∧
      ∀ cmd2 : UnmapRoute, cmd2.ui ≠ none →
        (run (UnmapRoute.Requirements sampleEnv conflictFlags) cmd2).1 = .error .failed ∧
        ∃ message, Event.uiFailed message ∈
          (run (UnmapRoute.Requirements sampleEnv conflictFlags) cmd2).2.trace) :=
  Requirements_needs_dependency_only_to_fail sampleEnv conflictFlags UnmapRoute.registered rfl

/-! ## Flag names -/

/-- Every call of `Execute` is one of `executeEvent`, whatever the command
and the flag context. -/
theorem Execute_all_events (env : Env) (c : FlagContext) (cmd : UnmapRoute) :
    (run (UnmapRoute.Execute env c) cmd).2.trace.all (executeEvent c) = true := by
  rcases cmd with ⟨ui, config, repo, ar, dr⟩
  cases dr with
  | none =>
    simp [run, UnmapRoute.Execute, bind_apply, GetDomain_apply, executeEvent]
  | some dr =>
  cases ar with
  | none =>
    simp [run, UnmapRoute.Execute, bind_apply, GetDomain_apply, GetApplication_apply,
      executeEvent]
  | some ar =>
  cases repo with
  | none =>
    simp [run, UnmapRoute.Execute, bind_apply, GetDomain_apply, GetApplication_apply,
      repoFind_apply, executeEvent]
  | some repo =>
  rcases hfind : repo.Find (c.String "n") (env.GetDomain dr) (c.String "path") (c.Int "port")
    with ⟨route, err⟩
  cases ui with
  | none =>
    cases err <;> cases config <;>
      simp [run, UnmapRoute.Execute, bind_apply, pure_apply, GetDomain_apply,
        GetApplication_apply, repoFind_apply, theConfig_apply, uiSay_apply, uiFailed_apply,
        hfind, executeEvent]
  | some ui =>
  cases config with
  | none =>
    cases err <;>
      simp [run, UnmapRoute.Execute, bind_apply, pure_apply, GetDomain_apply,
        GetApplication_apply, repoFind_apply, theConfig_apply, uiSay_apply, uiFailed_apply,
        hfind, executeEvent]
  | some config =>
    rw [Execute_apply env c ⟨some ui, some config, some repo, some ar, some dr⟩ ui config repo
      ar dr rfl rfl rfl rfl rfl, hfind]
    cases err with
    | some e => simp [findTrace, executeEvent]
    | none =>
      cases hb : boundTo route.Apps (env.GetApplication ar)
      · simp [findTrace, progressSay, executeEvent, hb]
      · cases hu : repo.Unbind route.GUID (env.GetApplication ar).GUID <;>
          simp [findTrace, progressSay, executeEvent, hb, hu]


theorem mem_queriedFlags (trace : List Event) (name : String) (h : name ∈ queriedFlags trace) :
    ∃ e ∈ trace, e.flagName = some name := by
  simpa [queriedFlags, List.mem_filterMap] using h

/-- C9 fails as stated: `Execute` queries the flag context for "n", which is
not a key of the flag schema of `MetaData`. -/
theorem Execute_queries_the_short_name :
    "n" ∈ queriedFlags
        (run (UnmapRoute.Execute sampleEnv plainFlags) (ready (sampleRepo otherRoute))).2.trace ∧
      "n" ∉ declaredFlagNames := by
  decide

/-- C9, amended: the keys of the flag schema of `MetaData` are "hostname",
"path" and "port", and the only short name it declares is "n", that of
"hostname".  Every flag name that `Requirements` queries is a key of the
schema; every flag name that `Execute` queries is a key or the declared short
name; and the host name that `Execute` passes to `Find` is the value that the
flag context gives for the short name "n". -/
theorem flag_queries_are_declared_names (env : Env) (fc : FlagContext) (cmd : UnmapRoute) :
    declaredFlagNames = ["hostname", "path", "port"] ∧
    declaredShortNames = ["n"] ∧
    (∀ flagSet, ("hostname", flagSet) ∈ UnmapRoute.MetaData.Flags → flagSet.ShortName = "n") ∧
    (∀ name ∈ queriedFlags (run (UnmapRoute.Requirements env fc) cmd).2.trace,
      name ∈ declaredFlagNames) ∧
    (∀ name ∈ queriedFlags (run (UnmapRoute.Execute env fc) cmd).2.trace,
      name ∈ declaredFlagNames ∨ name ∈ declaredShortNames) ∧
    (∀ hostName domain path port,
      Event.repoFind hostName domain path port ∈ (run (UnmapRoute.Execute env fc) cmd).2.trace →
      hostName = fc.String "n") := by
  have hkeys : declaredFlagNames = ["hostname", "path", "port"] := by decide
  have hshort : declaredShortNames = ["n"] := by decide
  refine ⟨hkeys, hshort, ?_, ?_, ?_, ?_⟩
  · intro flagSet h
    simp [UnmapRoute.MetaData] at h
    rw [h]
  · intro name hname
    obtain ⟨e, he, hflag⟩ := mem_queriedFlags _ _ hname
    have hev := Requirements_events env fc cmd e he
    rw [hkeys]
    cases e <;> simp [Event.flagName] at hflag <;> subst hflag <;>
      simp [requirementsEvent] at hev ⊢
    · rcases hev with h | h | h <;> simp [h]
    · simp [hev]
  · intro name hname
    obtain ⟨e, he, hflag⟩ := mem_queriedFlags _ _ hname
    have hev := List.all_eq_true.1 (Execute_all_events env fc cmd) e he
    rw [hkeys, hshort]
    cases e <;> simp [Event.flagName] at hflag <;> subst hflag <;>
      simp [executeEvent] at hev ⊢
    · rcases hev with h | h <;> simp [h]
    · simp [hev]
  · intro hostName domain path port he
    have hev := List.all_eq_true.1 (Execute_all_events env fc cmd) _ he
    simp [executeEvent] at hev
    exact hev.1

/-! ## The status of a service instance -/

/-- C10: `ServiceInstanceStateToStatus` returns the empty string for every
operation type and state when the service is user provided; otherwise it
returns the operation type followed by a space and the state for the states
"in progress", "succeeded" and "failed" ("create in progress" for "create"),
and the empty string for the empty state. -/
theorem ServiceInstanceStateToStatus_cases :
    (∀ operationType state, ServiceInstanceStateToStatus operationType state true = "") ∧
    (∀ operationType, ServiceInstanceStateToStatus operationType "in progress" false =
      operationType ++ " " ++ "in progress") ∧
    (∀ operationType, ServiceInstanceStateToStatus operationType "succeeded" false =
      operationType ++ " " ++ "succeeded") ∧
    (∀ operationType, ServiceInstanceStateToStatus operationType "failed" false =
      operationType ++ " " ++ "failed") ∧
    (∀ operationType, ServiceInstanceStateToStatus operationType "" false = "") ∧
    ServiceInstanceStateToStatus "create" "in progress" false = "create in progress" ∧
    ServiceInstanceStateToStatus "create" "succeeded" false = "create succeeded" ∧
    ServiceInstanceStateToStatus "create" "failed" false = "create failed" := by
  refine ⟨?_, ?_, ?_, ?_, ?_, by decide, by decide, by decide⟩
  · intro operationType state
    simp [ServiceInstanceStateToStatus]
  · intro operationType
    simp [ServiceInstanceStateToStatus]
  · intro operationType
    simp [ServiceInstanceStateToStatus]
  · intro operationType
    simp [ServiceInstanceStateToStatus]
  · intro operationType
    have h1 : ¬ ("" = "in progress") := by decide
    have h2 : ¬ ("" = "succeeded") := by decide
    have h3 : ¬ ("" = "failed") := by decide
    simp [ServiceInstanceStateToStatus, h1, h2, h3]

/-! ## Unbinding a mapped route -/

/-- C11: when `Find` returns a route without error, at least one application
bound to the route has the GUID of the target application and `Unbind`
succeeds, `Execute` returns normally after exactly these calls: the three
flag queries, `Find`, the progress message, one `Unbind` with the GUID of the
route and the GUID of the application, and the confirmation `Ok`.  So `Unbind`
is called exactly once, however many bound applications match, and no warning
is emitted. -/
theorem Execute_unbinds_once (env : Env) (c : FlagContext) (cmd : UnmapRoute) (ui : UI)
    (config : Config) (repo : RouteRepository) (ar : ApplicationRequirement)
    (dr : DomainRequirement) (route : Route)
    (hui : cmd.ui = some ui) (hconfig : cmd.config = some config)
    (hrepo : cmd.routeRepo = some repo) (har : cmd.appReq = some ar)
    (hdr : cmd.domainReq = some dr)
    (hfind : repo.Find (c.String "n") (env.GetDomain dr) (c.String "path") (c.Int "port") =
      (route, none))
    (hbound : ∃ routeApp ∈ route.Apps, routeApp.GUID = (env.GetApplication ar).GUID)
    (hunbind : repo.Unbind route.GUID (env.GetApplication ar).GUID = none) :
    run (UnmapRoute.Execute env c) cmd =
      (.ok (),
       { cmd := cmd
         trace := findTrace env c dr ++
          [progressSay env route (env.GetApplication ar) config,
            .repoUnbind route.GUID (env.GetApplication ar).GUID, .uiOk] }) ∧
    (run (UnmapRoute.Execute env c) cmd).2.trace.filter Event.isUnbind =
      [.repoUnbind route.GUID (env.GetApplication ar).GUID] ∧
    (∀ message, Event.uiWarn message ∉ (run (UnmapRoute.Execute env c) cmd).2.trace) := by
  have h := Execute_apply env c cmd ui config repo ar dr hui hconfig hrepo har hdr
  rw [hfind] at h
  simp only [boundTo_eq_true route.Apps (env.GetApplication ar) hbound, hunbind] at h
  rw [h]
  refine ⟨by simp, ?_, ?_⟩
  · simp [findTrace, progressSay, Event.isUnbind, List.filter]
  · simp [findTrace, progressSay]

theorem Execute_unbinds_once_witness :
    run (UnmapRoute.Execute sampleEnv plainFlags) (ready (sampleRepo twiceBoundRoute)) =
      (.ok (),
       { cmd := ready (sampleRepo twiceBoundRoute)
         trace := findTrace sampleEnv plainFlags ⟨"example.com"⟩ ++
          [progressSay sampleEnv twiceBoundRoute (sampleEnv.GetApplication ⟨"my-app"⟩)
              ⟨"my-org", "my-space", "my-user"⟩,
            .repoUnbind twiceBoundRoute.GUID (sampleEnv.GetApplication ⟨"my-app"⟩).GUID,
            .uiOk] }) ∧
    (run (UnmapRoute.Execute sampleEnv plainFlags)
        (ready (sampleRepo twiceBoundRoute))).2.trace.filter Event.isUnbind =
      [.repoUnbind twiceBoundRoute.GUID (sampleEnv.GetApplication ⟨"my-app"⟩).GUID] ∧
    (∀ message, Event.uiWarn message ∉
      (run (UnmapRoute.Execute sampleEnv plainFlags) (ready (sampleRepo twiceBoundRoute))).2.trace) :=
  Execute_unbinds_once sampleEnv plainFlags (ready (sampleRepo twiceBoundRoute)) ⟨1⟩
    ⟨"my-org", "my-space", "my-user"⟩ (sampleRepo twiceBoundRoute) ⟨"my-app"⟩ ⟨"example.com"⟩
    twiceBoundRoute rfl rfl rfl rfl rfl rfl (by decide) rfl

/-! ## The requirements that `Execute` reads -/

/-- The method `SetDependency` assigns `ui`, `config` and `routeRepo` from the
bundle, keeps `appReq` and `domainReq`, makes no call and returns the
command. -/
theorem SetDependency_apply (deps : Dependency) (pluginCall : Bool) (w : World) :
    UnmapRoute.SetDependency deps pluginCall w =
      (.ok { ui := deps.UI, config := deps.Config,
             routeRepo := deps.RepoLocator.GetRouteRepository,
             appReq := w.cmd.appReq, domainReq := w.cmd.domainReq },
       { cmd := { ui := deps.UI, config := deps.Config,
                  routeRepo := deps.RepoLocator.GetRouteRepository,
                  appReq := w.cmd.appReq, domainReq := w.cmd.domainReq }
         trace := w.trace }) := by
  simp [UnmapRoute.SetDependency, bind_apply]

/-- On a command that has its collaborators and its two requirements,
`Execute` calls `Find`, and every `Find` takes the domain that the domain
requirement of the command resolved and every `Unbind` the GUID of the
application that its application requirement resolved. -/
theorem Execute_entities (env : Env) (c : FlagContext) (cmd : UnmapRoute) (ui : UI)
    (config : Config) (repo : RouteRepository) (ar : ApplicationRequirement)
    (dr : DomainRequirement) (hui : cmd.ui = some ui) (hconfig : cmd.config = some config)
    (hrepo : cmd.routeRepo = some repo) (har : cmd.appReq = some ar)
    (hdr : cmd.domainReq = some dr) :
    Event.repoFind (c.String "n") (env.GetDomain dr) (c.String "path") (c.Int "port") ∈
      (run (UnmapRoute.Execute env c) cmd).2.trace ∧
    ∀ e ∈ (run (UnmapRoute.Execute env c) cmd).2.trace,
      (∀ hostName domain path port, e = .repoFind hostName domain path port →
        domain = env.GetDomain dr) ∧
      (∀ routeGUID appGUID, e = .repoUnbind routeGUID appGUID →
        appGUID = (env.GetApplication ar).GUID) := by
  rw [Execute_apply env c cmd ui config repo ar dr hui hconfig hrepo har hdr]
  rcases hfind : repo.Find (c.String "n") (env.GetDomain dr) (c.String "path") (c.Int "port")
    with ⟨route, err⟩
  cases err with
  | some e =>
    simp [findTrace]
    intro _ domain _ _ _ hd _ _
    exact hd.symm
  | none =>
    cases hb : boundTo route.Apps (env.GetApplication ar)
    · simp [findTrace, progressSay, hb]
      intro _ domain _ _ _ hd _ _
      exact hd.symm
    · cases hu : repo.Unbind route.GUID (env.GetApplication ar).GUID <;>
        simp [findTrace, progressSay, hb, hu] <;>
        · intro _ domain _ _ _ hd _ _
          exact hd.symm

/-- C12: on a flag context with two positional arguments and a legal flag
combination, `Requirements` constructs one application requirement and one
domain requirement, stores them in `cmd.appReq` and `cmd.domainReq` and
returns them as the application and the domain requirement of its list;
`SetDependency` leaves both fields as they are; and in the `Execute` that
follows, `Find` takes the domain that this domain requirement resolved and
`Unbind` the GUID of the application that this application requirement
resolved. -/
theorem Execute_reads_the_listed_requirements (env : Env) (fc : FlagContext)
    (cmd : UnmapRoute) (deps : Dependency) (pluginCall : Bool) (a0 a1 : String) (ui : UI)
    (config : Config) (repo : RouteRepository) (hargs : fc.Args = [a0, a1])
    (hflags : (fc.IsSet "port" && (fc.IsSet "hostname" || fc.IsSet "path")) = false)
    (hUI : deps.UI = some ui) (hConfig : deps.Config = some config)
    (hRepo : deps.RepoLocator.GetRouteRepository = some repo) :
    ∃ reqs w1 cmd2 w2,
      run (UnmapRoute.Requirements env fc) cmd = (.ok reqs, w1) ∧
      w1.cmd.appReq = some ⟨a0⟩ ∧ w1.cmd.domainReq = some ⟨a1⟩ ∧
      (∀ r, Requirement.application r ∈ reqs ↔ r = ⟨a0⟩) ∧
      (∀ r, Requirement.domain r ∈ reqs ↔ r = ⟨a1⟩) ∧
      w1.trace.filter Event.isEntityRequirement =
        [.newApplicationRequirement a0, .newDomainRequirement a1] ∧
      (∀ w, (UnmapRoute.SetDependency deps pluginCall w).2.cmd.appReq = w.cmd.appReq ∧
        (UnmapRoute.SetDependency deps pluginCall w).2.cmd.domainReq = w.cmd.domainReq) ∧
      UnmapRoute.SetDependency deps pluginCall w1 = (.ok cmd2, w2) ∧ w2.cmd = cmd2 ∧
      cmd2.appReq = some ⟨a0⟩ ∧ cmd2.domainReq = some ⟨a1⟩ ∧
      Event.repoFind (fc.String "n") (env.GetDomain ⟨a1⟩) (fc.String "path")
          (fc.Int "port") ∈ (run (UnmapRoute.Execute env fc) cmd2).2.trace ∧
      ∀ e ∈ (run (UnmapRoute.Execute env fc) cmd2).2.trace,
        (∀ hostName domain path port, e = .repoFind hostName domain path port →
          domain = env.GetDomain ⟨a1⟩) ∧
        (∀ routeGUID appGUID, e = .repoUnbind routeGUID appGUID →
          appGUID = (env.GetApplication ⟨a0⟩).GUID) := by
  refine ⟨_, _, _, _, Requirements_wellFormed env fc cmd a0 a1 hargs hflags, rfl, rfl, ?_, ?_, ?_,
    ?_, SetDependency_apply deps pluginCall _, rfl, rfl, rfl, ?_⟩
  · intro r
    by_cases hpath : fc.String "path" = "" <;> by_cases hport : fc.IsSet "port" = true <;>
      simp [versionRequirements, hpath, hport]
  · intro r
    by_cases hpath : fc.String "path" = "" <;> by_cases hport : fc.IsSet "port" = true <;>
      simp [versionRequirements, hpath, hport]
  · by_cases hpath : fc.String "path" = "" <;> by_cases hport : fc.IsSet "port" = true <;>
      simp [wellFormedTrace, hpath, hport, List.filter, Event.isEntityRequirement]
  · intro w
    rw [SetDependency_apply]
    exact ⟨rfl, rfl⟩
  · exact Execute_entities env fc _ ui config repo ⟨a0⟩ ⟨a1⟩ hUI hConfig hRepo rfl rfl

theorem Execute_reads_the_listed_requirements_witness :
    ∃ reqs w1 cmd2 w2,
      run (UnmapRoute.Requirements sampleEnv plainFlags) UnmapRoute.registered = (.ok reqs, w1) ∧
      w1.cmd.appReq = some ⟨"my-app"⟩ ∧ w1.cmd.domainReq = some ⟨"example.com"⟩ ∧
      (∀ r, Requirement.application r ∈ reqs ↔ r = ⟨"my-app"⟩) ∧
      (∀ r, Requirement.domain r ∈ reqs ↔ r = ⟨"example.com"⟩) ∧
      w1.trace.filter Event.isEntityRequirement =
        [.newApplicationRequirement "my-app", .newDomainRequirement "example.com"] ∧
      (∀ w, (UnmapRoute.SetDependency (sampleDeps (sampleRepo boundRoute)) false w).2.cmd.appReq = w.cmd.appReq ∧
        (UnmapRoute.SetDependency (sampleDeps (sampleRepo boundRoute)) false w).2.cmd.domainReq = w.cmd.domainReq) ∧
      UnmapRoute.SetDependency (sampleDeps (sampleRepo boundRoute)) false w1 = (.ok cmd2, w2) ∧ w2.cmd = cmd2 ∧
      cmd2.appReq = some ⟨"my-app"⟩ ∧ cmd2.domainReq = some ⟨"example.com"⟩ ∧
      Event.repoFind (plainFlags.String "n") (sampleEnv.GetDomain ⟨"example.com"⟩) (plainFlags.String "path")
          (plainFlags.Int "port") ∈ (run (UnmapRoute.Execute sampleEnv plainFlags) cmd2).2.trace ∧
      ∀ e ∈ (run (UnmapRoute.Execute sampleEnv plainFlags) cmd2).2.trace,
        (∀ hostName domain path port, e = .repoFind hostName domain path port →
          domain = sampleEnv.GetDomain ⟨"example.com"⟩) ∧
        (∀ routeGUID appGUID, e = .repoUnbind routeGUID appGUID →
          appGUID = (sampleEnv.GetApplication ⟨"my-app"⟩).GUID) :=
  Execute_reads_the_listed_requirements sampleEnv plainFlags UnmapRoute.registered
    (sampleDeps (sampleRepo boundRoute)) false "my-app" "example.com" ⟨1⟩
    ⟨"my-org", "my-space", "my-user"⟩ (sampleRepo boundRoute) rfl rfl rfl rfl rfl

end CF
